import Mathlib

set_option maxRecDepth 8000

/-!
Shallow embedding of the rigid-diaphragm solvers of the repository
(`rigid_diaphragm_analysis_R1.py`, `rigid_diaphragm_app_R1.py`,
`rigid_diaphragm_app_v2.py`, `rigid_streamlit_app.py`).

Numeric model: Python floats are modelled as exact rationals.  A value that
IEEE arithmetic would turn non-finite (NaN or ±Inf) is modelled by the
sentinel `none` of `FNum := Option ℚ`; finite values are `some q`.  The two
non-finite kinds are collapsed into one sentinel; in every code path the
claims exercise a non-finite value is never converted back to a finite one,
so the collapse is faithful there.  Divisions executed by pure Python
(`height / length` and `1.0 / Di` in the R1-family per-wall loop) raise
`ZeroDivisionError` and are modelled as `Except` errors; divisions executed
by pandas/numpy silently produce non-finite values and are modelled by
`fdiv` returning the sentinel.
-/

/-- ASCII uppercase of one character (Python `str.upper` on the ASCII range). -/
def upChar (c : Char) : Char :=
  if 97 ≤ c.toNat ∧ c.toNat ≤ 122 then Char.ofNat (c.toNat - 32) else c

/-- Characters of a string, uppercased. -/
def upperChars (s : String) : List Char := s.data.map upChar

/-- ASCII whitespace recognised by `str.strip`. -/
def isSpaceChar (c : Char) : Bool :=
  c == ' ' || c == '\t' || c == '\n' || c == '\r'

/-- Python `str.strip()` (ASCII whitespace on both ends). -/
def strTrim (s : String) : String :=
  ⟨((s.data.dropWhile isSpaceChar).reverse.dropWhile isSpaceChar).reverse⟩

/-- `needle` matches at the head of the haystack (`str.startswith`). -/
def matchesAt : List Char → List Char → Bool
  | [], _ => true
  | _ :: _, [] => false
  | a :: as, b :: bs => a == b && matchesAt as bs

/-- Substring containment (Python `needle in hay`). -/
def hasSub (needle : List Char) : List Char → Bool
  | [] => matchesAt needle []
  | b :: bs => matchesAt needle (b :: bs) || hasSub needle bs

/-- `"EW" in name.upper()` — the R1-family east-west marker test. -/
def nameHasEW (s : String) : Bool := hasSub ['E', 'W'] (upperChars s)

/-- `"NS" in name.upper()` — the R1-family north-south marker test. -/
def nameHasNS (s : String) : Bool := hasSub ['N', 'S'] (upperChars s)

/-- `marker.upper().startswith("EW")` — the streamlit-variant marker test. -/
def startsEW (s : String) : Bool := matchesAt ['E', 'W'] (upperChars s)

/-- `marker.upper().startswith("NS")` — the streamlit-variant marker test. -/
def startsNS (s : String) : Bool := matchesAt ['N', 'S'] (upperChars s)

/-- A float value: `some q` is finite, `none` is the collapsed NaN/Inf sentinel. -/
abbrev FNum := Option ℚ

def fadd : FNum → FNum → FNum
  | some a, some b => some (a + b)
  | _, _ => none

def fsub : FNum → FNum → FNum
  | some a, some b => some (a - b)
  | _, _ => none

/-- IEEE-style product: a non-finite operand poisons even a zero (0·NaN = NaN). -/
def fmul : FNum → FNum → FNum
  | some a, some b => some (a * b)
  | _, _ => none

/-- Division; a zero divisor produces the non-finite sentinel (±Inf or NaN). -/
def fdiv : FNum → FNum → FNum
  | some a, some b => if b = 0 then none else some (a / b)
  | _, _ => none

def fabs : FNum → FNum
  | some a => some (abs a)
  | none => none

/-- pandas `Series.sum` / numpy `nansum`: non-finite entries are skipped. -/
def skipnaSum : List FNum → ℚ
  | [] => 0
  | some a :: t => a + skipnaSum t
  | none :: t => skipnaSum t

/-- Plain left-to-right float sum (used to state conservation properties). -/
def fsum : List FNum → FNum
  | [] => some 0
  | a :: t => fadd a (fsum t)

/-- Error-propagating map, mirroring a Python loop that may raise. -/
def exMapM {α β ε : Type} (f : α → Except ε β) : List α → Except ε (List β)
  | [] => .ok []
  | a :: t =>
    match f a with
    | .error e => .error e
    | .ok b =>
      match exMapM f t with
      | .error e => .error e
      | .ok bs => .ok (b :: bs)

def exIsOk {α ε : Type} : Except ε α → Bool
  | .ok _ => true
  | .error _ => false

/-- Stable insertion sort (models pandas `sort_values(kind="stable")`). -/
def insertBy {α : Type} (le : α → α → Bool) (x : α) : List α → List α
  | [] => [x]
  | y :: ys => if le x y then x :: y :: ys else y :: insertBy le x ys

def insertionSort {α : Type} (le : α → α → Bool) : List α → List α
  | [] => []
  | x :: xs => insertBy le x (insertionSort le xs)

/-- Code-point lexicographic string order (Python string comparison). -/
def strLeChars : List Char → List Char → Bool
  | [], _ => true
  | _ :: _, [] => false
  | a :: as, b :: bs =>
    if a.toNat < b.toNat then true
    else if b.toNat < a.toNat then false
    else strLeChars as bs

def strLe (a b : String) : Bool := strLeChars a.data b.data

/-- Direction sort key used by the app variants: EW first, then NS, then other. -/
def dirOrder (nm : String) : Nat :=
  if nameHasEW nm then 0 else if nameHasNS nm then 1 else 2

/-- Exceptions the R1-family solvers can raise:
`nameErr` is the `ValueError` from `_wall_orientation_factors`, `zeroDiv` the
`ZeroDivisionError` from pure-Python `height/length` or `1.0/Di`, `zeroJp`
the v2 guard `ZeroDivisionError("Jp is zero")`, and `emptyWalls` the failure
on an empty wall table. -/
inductive SolveErr : Type
  | nameErr (nm : String)
  | zeroDiv
  | zeroJp
  | emptyWalls
deriving DecidableEq

/-- One wall record handed to the R1-family solvers
(`Wall Name`, `Length (m)`, `Height (m)`, `w_k (kN)`, `x_coord (m)`, `y_coord (m)`). -/
structure WallIn : Type where
  name : String
  len : ℚ
  ht : ℚ
  wk : ℚ
  x : ℚ
  y : ℚ
deriving DecidableEq

/-- The nine scalar diaphragm inputs of the R1-family solvers. -/
structure InputsR1 : Type where
  L : ℚ
  B : ℚ
  XcmMan : ℚ
  YcmMan : ℚ
  W : ℚ
  Xoff : ℚ
  Yoff : ℚ
  Fx : ℚ
  Fy : ℚ
deriving DecidableEq

/-- `_wall_orientation_factors`: EW walls get `(1/Di, 0)`, NS walls `(0, 1/Di)`,
anything else raises `ValueError`; `1.0/Di` raises `ZeroDivisionError` at `Di = 0`. -/
def wallOrientationFactors (nm : String) (Di : ℚ) : Except SolveErr (ℚ × ℚ) :=
  if nameHasEW nm then
    if Di = 0 then .error .zeroDiv else .ok (1 / Di, 0)
  else if nameHasNS nm then
    if Di = 0 then .error .zeroDiv else .ok (0, 1 / Di)
  else .error (.nameErr nm)

/-- Per-wall values computed inside the R1 wall loop (the row up to column
`Rix*yk` of the Excel-like table). -/
structure RowPre : Type where
  name : String
  len : ℚ
  ht : ℚ
  wk : ℚ
  x : ℚ
  y : ℚ
  xk : ℚ
  yk : ℚ
  Di : ℚ
  Rix : ℚ
  Riy : ℚ
deriving DecidableEq

/-- One iteration of the R1 wall loop: trim the name, shift coordinates by the
paper offsets, compute `Di = 4(h/l)^3 + 3(h/l)` (pure Python: `h/l` raises on
`l = 0`), then classify via the wall name. -/
def buildRowR1 (Xoff Yoff : ℚ) (w : WallIn) : Except SolveErr RowPre :=
  let nm := strTrim w.name
  if w.len = 0 then .error .zeroDiv
  else
    let hl := w.ht / w.len
    let Di := 4 * hl ^ 3 + 3 * hl
    match wallOrientationFactors nm Di with
    | .error e => .error e
    | .ok rf =>
      .ok { name := nm, len := w.len, ht := w.ht, wk := w.wk, x := w.x, y := w.y,
            xk := w.x - Xoff, yk := w.y - Yoff, Di := Di, Rix := rf.1, Riy := rf.2 }

/-- The solver-wide scalars of the R1 solver (steps 4-7 of the computation). -/
structure CtxR1 : Type where
  Xcm : ℚ
  Ycm : ℚ
  sumRix : ℚ
  sumRiy : ℚ
  Xcr : FNum
  Ycr : FNum
  ex : FNum
  ey : FNum
  exbar : ℚ
  eybar : ℚ
  Jp : ℚ
deriving DecidableEq

/-- Centers, eccentricities and `Jp` of the R1 solver.  `Xcr`/`Ycr` fall back
to the NaN sentinel when the rigidity sum is zero (`float("nan")` in source);
`Jp` is a pandas sum, which skips NaN entries. -/
def mkCtxR1 (inp : InputsR1) (pre : List RowPre) : CtxR1 :=
  let Xcm := inp.XcmMan - inp.Xoff
  let Ycm := inp.YcmMan - inp.Yoff
  let sumRix := (pre.map (fun p => p.Rix)).sum
  let sumRiy := (pre.map (fun p => p.Riy)).sum
  let Xcr : FNum :=
    if sumRiy = 0 then none
    else some ((pre.map (fun p => p.Riy * p.xk)).sum / sumRiy)
  let Ycr : FNum :=
    if sumRix = 0 then none
    else some ((pre.map (fun p => p.Rix * p.yk)).sum / sumRix)
  let ex := fabs (fsub (some Xcm) Xcr)
  let ey := fabs (fsub (some Ycm) Ycr)
  let Jp :=
    skipnaSum (pre.map (fun p =>
      fmul (some p.Riy) (fmul (fsub (some p.xk) Xcr) (fsub (some p.xk) Xcr)))) +
    skipnaSum (pre.map (fun p =>
      fmul (some p.Rix) (fmul (fsub (some p.yk) Ycr) (fsub (some p.yk) Ycr))))
  { Xcm := Xcm, Ycm := Ycm, sumRix := sumRix, sumRiy := sumRiy,
    Xcr := Xcr, Ycr := Ycr, ex := ex, ey := ey,
    exbar := (1 / 10) * inp.L, eybar := (1 / 10) * inp.B, Jp := Jp }

/-- One output row of the R1 solver (columns of the Excel-like table). -/
structure RowR1 : Type where
  name : String
  len : ℚ
  ht : ℚ
  wk : ℚ
  x : ℚ
  y : ℚ
  xk : ℚ
  yk : ℚ
  Di : ℚ
  Rix : ℚ
  Riy : ℚ
  xbar : FNum
  ybar : FNum
  realTorRatioX : FNum
  realTorRatioY : FNum
  vxRealTor : FNum
  vyRealTor : FNum
  directRatioX : ℚ
  directRatioY : ℚ
  directX : ℚ
  directY : ℚ
  accTorRatioX : FNum
  accTorRatioY : FNum
  vxAccTor : FNum
  vyAccTor : FNum
  vxTot : FNum
  vyTot : FNum
deriving DecidableEq

/-- Steps 6-11 of the R1 solver for one wall: relative distances, real- and
accidental-torsion ratios and shears, direct shear, and the totals
`Vx = Vx_RealTor + Direct_x + Vx_AccTor` and
`Vy = Vy_RealTor + Direct_y + |Vy_AccTor|`. -/
def finalizeRowR1 (Fx Fy : ℚ) (c : CtxR1) (p : RowPre) : RowR1 :=
  let xbar := fsub (some p.xk) c.Xcr
  let ybar := fsub (some p.yk) c.Ycr
  let rtrX := fdiv (fmul (fmul (some p.Rix) ybar) c.ey) (some c.Jp)
  let rtrY := fdiv (fmul (fmul (some p.Riy) xbar) c.ex) (some c.Jp)
  let vxReal := fmul (some Fx) rtrX
  let vyReal := fmul (some Fy) rtrY
  let drX : ℚ := if c.sumRix = 0 then 0 else p.Rix / c.sumRix
  let drY : ℚ := if c.sumRiy = 0 then 0 else p.Riy / c.sumRiy
  let dX := Fx * drX
  let dY := Fy * drY
  let atrX := fdiv (fmul (fmul (some c.eybar) (some p.Rix)) ybar) (some c.Jp)
  let atrY := fdiv (fmul (fmul (some c.exbar) (some p.Riy)) xbar) (some c.Jp)
  let vxAcc := fmul (some Fy) atrX
  let vyAcc := fmul (some Fx) atrY
  { name := p.name, len := p.len, ht := p.ht, wk := p.wk, x := p.x, y := p.y,
    xk := p.xk, yk := p.yk, Di := p.Di, Rix := p.Rix, Riy := p.Riy,
    xbar := xbar, ybar := ybar,
    realTorRatioX := rtrX, realTorRatioY := rtrY,
    vxRealTor := vxReal, vyRealTor := vyReal,
    directRatioX := drX, directRatioY := drY, directX := dX, directY := dY,
    accTorRatioX := atrX, accTorRatioY := atrY,
    vxAccTor := vxAcc, vyAccTor := vyAcc,
    vxTot := fadd (fadd vxReal (some dX)) vxAcc,
    vyTot := fadd (fadd vyReal (some dY)) (fabs vyAcc) }

/-- Summary scalars returned by the R1 solver. -/
structure SummaryR1 : Type where
  L : ℚ
  B : ℚ
  Xoff : ℚ
  Yoff : ℚ
  Xcm : ℚ
  Ycm : ℚ
  Xcr : FNum
  Ycr : FNum
  ex : FNum
  ey : FNum
  exbar : ℚ
  eybar : ℚ
  Jp : ℚ
  Fx : ℚ
  Fy : ℚ
  sumRix : ℚ
  sumRiy : ℚ
deriving DecidableEq

def mkSummaryR1 (inp : InputsR1) (c : CtxR1) : SummaryR1 :=
  { L := inp.L, B := inp.B, Xoff := inp.Xoff, Yoff := inp.Yoff,
    Xcm := c.Xcm, Ycm := c.Ycm, Xcr := c.Xcr, Ycr := c.Ycr,
    ex := c.ex, ey := c.ey, exbar := c.exbar, eybar := c.eybar,
    Jp := c.Jp, Fx := inp.Fx, Fy := inp.Fy,
    sumRix := c.sumRix, sumRiy := c.sumRiy }

/-- `compute_rigid_diaphragm` of `rigid_diaphragm_analysis_R1.py`.  An empty
wall list makes pandas raise (`KeyError` on the empty frame), modelled as
`emptyWalls`; otherwise the table and summary are produced with no further
guard — in particular there is no `Jp = 0` check. -/
def computeR1 (inp : InputsR1) (walls : List WallIn) :
    Except SolveErr (List RowR1 × SummaryR1) :=
  match exMapM (buildRowR1 inp.Xoff inp.Yoff) walls with
  | .error e => .error e
  | .ok [] => .error .emptyWalls
  | .ok (p :: ps) =>
    let c := mkCtxR1 inp (p :: ps)
    .ok ((p :: ps).map (finalizeRowR1 inp.Fx inp.Fy c), mkSummaryR1 inp c)

/-- Sort key of the app variants: EW rows first, then NS, ties by name. -/
def rowLeR1 (a b : RowR1) : Bool :=
  Nat.blt (dirOrder a.name) (dirOrder b.name) ||
    (dirOrder a.name == dirOrder b.name && strLe a.name b.name)

/-- `compute_rigid_diaphragm` of `rigid_diaphragm_app_R1.py`: line for line the
same computation as `rigid_diaphragm_analysis_R1.py`, followed by the stable
sort of the output rows by direction then name. -/
def computeAppR1 (inp : InputsR1) (walls : List WallIn) :
    Except SolveErr (List RowR1 × SummaryR1) :=
  match computeR1 inp walls with
  | .error e => .error e
  | .ok res => .ok (insertionSort rowLeR1 res.fst, res.snd)

/-- Sort key applied by the v2 variant to the wall rows before the center
computations (values are order-independent; the sort fixes display order). -/
def preLeR1 (a b : RowPre) : Bool :=
  Nat.blt (dirOrder a.name) (dirOrder b.name) ||
    (dirOrder a.name == dirOrder b.name && strLe a.name b.name)

/-- Solver-wide scalars of the v2 variant.  Unlike R1, the undefined
center-of-rigidity coordinate falls back to `0.0` (source: `else 0.0`), so
every scalar stays finite. -/
structure CtxV2 : Type where
  Xcm : ℚ
  Ycm : ℚ
  sumRix : ℚ
  sumRiy : ℚ
  Xcr : ℚ
  Ycr : ℚ
  ex : ℚ
  ey : ℚ
  exbar : ℚ
  eybar : ℚ
  Jp : ℚ
deriving DecidableEq

def mkCtxV2 (inp : InputsR1) (pre : List RowPre) : CtxV2 :=
  let Xcm := inp.XcmMan - inp.Xoff
  let Ycm := inp.YcmMan - inp.Yoff
  let sumRix := (pre.map (fun p => p.Rix)).sum
  let sumRiy := (pre.map (fun p => p.Riy)).sum
  let Xcr : ℚ :=
    if sumRiy = 0 then 0 else (pre.map (fun p => p.Riy * p.xk)).sum / sumRiy
  let Ycr : ℚ :=
    if sumRix = 0 then 0 else (pre.map (fun p => p.Rix * p.yk)).sum / sumRix
  let Jp :=
    (pre.map (fun p => p.Riy * (p.xk - Xcr) ^ 2)).sum +
    (pre.map (fun p => p.Rix * (p.yk - Ycr) ^ 2)).sum
  { Xcm := Xcm, Ycm := Ycm, sumRix := sumRix, sumRiy := sumRiy,
    Xcr := Xcr, Ycr := Ycr, ex := abs (Xcm - Xcr), ey := abs (Ycm - Ycr),
    exbar := (1 / 10) * inp.L, eybar := (1 / 10) * inp.B, Jp := Jp }

/-- Output row of the v2 variant: all entries finite because of the `Jp = 0`
guard and the finite center fallback. -/
structure RowV2 : Type where
  name : String
  len : ℚ
  ht : ℚ
  wk : ℚ
  x : ℚ
  y : ℚ
  xk : ℚ
  yk : ℚ
  Di : ℚ
  Rix : ℚ
  Riy : ℚ
  xbar : ℚ
  ybar : ℚ
  realTorRatioX : ℚ
  realTorRatioY : ℚ
  vxRealTor : ℚ
  vyRealTor : ℚ
  directRatioX : ℚ
  directRatioY : ℚ
  directX : ℚ
  directY : ℚ
  accTorRatioX : ℚ
  accTorRatioY : ℚ
  vxAccTor : ℚ
  vyAccTor : ℚ
  vxTot : ℚ
  vyTot : ℚ
deriving DecidableEq

def finalizeRowV2 (Fx Fy : ℚ) (c : CtxV2) (p : RowPre) : RowV2 :=
  let xbar := p.xk - c.Xcr
  let ybar := p.yk - c.Ycr
  let rtrX := p.Rix * ybar * c.ey / c.Jp
  let rtrY := p.Riy * xbar * c.ex / c.Jp
  let drX : ℚ := if c.sumRix = 0 then 0 else p.Rix / c.sumRix
  let drY : ℚ := if c.sumRiy = 0 then 0 else p.Riy / c.sumRiy
  let atrX := c.eybar * p.Rix * ybar / c.Jp
  let atrY := c.exbar * p.Riy * xbar / c.Jp
  let vxAcc := Fy * atrX
  let vyAcc := Fx * atrY
  { name := p.name, len := p.len, ht := p.ht, wk := p.wk, x := p.x, y := p.y,
    xk := p.xk, yk := p.yk, Di := p.Di, Rix := p.Rix, Riy := p.Riy,
    xbar := xbar, ybar := ybar,
    realTorRatioX := rtrX, realTorRatioY := rtrY,
    vxRealTor := Fx * rtrX, vyRealTor := Fy * rtrY,
    directRatioX := drX, directRatioY := drY,
    directX := Fx * drX, directY := Fy * drY,
    accTorRatioX := atrX, accTorRatioY := atrY,
    vxAccTor := vxAcc, vyAccTor := vyAcc,
    vxTot := Fx * rtrX + Fx * drX + vxAcc,
    vyTot := Fy * rtrY + Fy * drY + abs vyAcc }

/-- Summary of the v2 variant (all finite; includes the echoed weight `W`). -/
structure SummaryV2 : Type where
  L : ℚ
  B : ℚ
  Xoff : ℚ
  Yoff : ℚ
  Xcm : ℚ
  Ycm : ℚ
  Xcr : ℚ
  Ycr : ℚ
  ex : ℚ
  ey : ℚ
  exbar : ℚ
  eybar : ℚ
  Jp : ℚ
  Fx : ℚ
  Fy : ℚ
  sumRix : ℚ
  sumRiy : ℚ
  W : ℚ
deriving DecidableEq

def mkSummaryV2 (inp : InputsR1) (c : CtxV2) : SummaryV2 :=
  { L := inp.L, B := inp.B, Xoff := inp.Xoff, Yoff := inp.Yoff,
    Xcm := c.Xcm, Ycm := c.Ycm, Xcr := c.Xcr, Ycr := c.Ycr,
    ex := c.ex, ey := c.ey, exbar := c.exbar, eybar := c.eybar,
    Jp := c.Jp, Fx := inp.Fx, Fy := inp.Fy,
    sumRix := c.sumRix, sumRiy := c.sumRiy, W := inp.W }

/-- `compute_rigid_diaphragm` of `rigid_diaphragm_app_v2.py`: empty wall table
raises `ValueError("No walls provided.")`; rows are built with the same
formulas as R1, sorted EW-then-NS, and the solve aborts with
`ZeroDivisionError` when `Jp = 0` — the only variant with that guard.
(In the source `Height/Length` of this variant runs through pandas, which
would yield ±Inf instead of raising for a zero length; no claim exercises a
zero-length wall on this variant, and the embedding reuses the R1 per-wall
loop for that step.) -/
def computeV2 (inp : InputsR1) (walls : List WallIn) :
    Except SolveErr (List RowV2 × SummaryV2) :=
  if walls.isEmpty then .error .emptyWalls
  else
    match exMapM (buildRowR1 inp.Xoff inp.Yoff) walls with
    | .error e => .error e
    | .ok pre =>
      let sorted := insertionSort preLeR1 pre
      let c := mkCtxV2 inp sorted
      if c.Jp = 0 then .error .zeroJp
      else .ok (sorted.map (finalizeRowV2 inp.Fx inp.Fy c), mkSummaryV2 inp c)

/-- One wall record of the streamlit variant (`marker, L, H, w, x, y`). -/
structure WallSL : Type where
  marker : String
  L : ℚ
  H : ℚ
  w : ℚ
  x : ℚ
  y : ℚ
deriving DecidableEq

/-- Global inputs of the streamlit variant. -/
structure InputsSL : Type where
  Vx : ℚ
  Vy : ℚ
  ox : ℚ
  oy : ℚ
  planX : ℚ
  planY : ℚ
  diaW : ℚ
  diaX : ℚ
  diaY : ℚ
deriving DecidableEq

/-- Per-wall values of the streamlit variant before the aggregates: the
rigidity `delta` runs through pandas, so a zero length yields a non-finite
value rather than raising, and a marker starting with neither `EW` nor `NS`
silently gets zero rigidity in both directions (`np.where`). -/
structure PreSL : Type where
  marker : String
  L : ℚ
  H : ℚ
  w : ℚ
  x : ℚ
  y : ℚ
  xk : ℚ
  yk : ℚ
  delta : FNum
  riEW : FNum
  riNS : FNum
deriving DecidableEq

def buildRowSL (inp : InputsSL) (wl : WallSL) : PreSL :=
  let mk := strTrim wl.marker
  let hl := fdiv (some wl.H) (some wl.L)
  let delta := fadd (fmul (some 4) (fmul (fmul hl hl) hl)) (fmul (some 3) hl)
  { marker := mk, L := wl.L, H := wl.H, w := wl.w, x := wl.x, y := wl.y,
    xk := wl.x - inp.ox, yk := wl.y - inp.oy, delta := delta,
    riEW := if startsEW mk then fdiv (some 1) delta else some 0,
    riNS := if startsNS mk then fdiv (some 1) delta else some 0 }

/-- Global outputs of the streamlit variant. -/
structure GlobalsSL : Type where
  sumRiEW : ℚ
  sumRiNS : ℚ
  xr : FNum
  yr : FNum
  xcg : FNum
  ycg : FNum
  exReal : FNum
  eyReal : FNum
  exAcc : ℚ
  eyAcc : ℚ
  Jpx : ℚ
  Jpy : ℚ
  Jp : ℚ
  Wtot : ℚ
deriving DecidableEq

/-- Output row of the streamlit variant. -/
structure RowSL : Type where
  marker : String
  L : ℚ
  H : ℚ
  w : ℚ
  x : ℚ
  y : ℚ
  xk : ℚ
  yk : ℚ
  delta : FNum
  riEW : FNum
  riNS : FNum
  xbar : FNum
  ybar : FNum
  directRatioX : FNum
  directRatioY : FNum
  directX : FNum
  directY : FNum
  realTorRatioX : FNum
  realTorRatioY : FNum
  realTorX : FNum
  realTorY : FNum
  accTorRatioX : FNum
  accTorRatioY : FNum
  accTorX : FNum
  accTorY : FNum
  vX : FNum
  vY : FNum
deriving DecidableEq

def finalizeRowSL (inp : InputsSL) (g : GlobalsSL) (p : PreSL) : RowSL :=
  let xbar := fsub (some p.xk) g.xr
  let ybar := fsub (some p.yk) g.yr
  let drX : FNum := if g.sumRiEW = 0 then none else fdiv p.riEW (some g.sumRiEW)
  let drY : FNum := if g.sumRiNS = 0 then none else fdiv p.riNS (some g.sumRiNS)
  let dX := fmul (some inp.Vx) drX
  let dY := fmul (some inp.Vy) drY
  let rtrX : FNum :=
    if g.Jp = 0 then none else fdiv (fmul (fmul g.eyReal p.riEW) ybar) (some g.Jp)
  let rtrY : FNum :=
    if g.Jp = 0 then none else fdiv (fmul (fmul g.exReal p.riNS) xbar) (some g.Jp)
  let atrX : FNum :=
    if g.Jp = 0 then none else fdiv (fmul (fmul (some g.eyAcc) p.riEW) ybar) (some g.Jp)
  let atrY : FNum :=
    if g.Jp = 0 then none else fdiv (fmul (fmul (some g.exAcc) p.riNS) xbar) (some g.Jp)
  let rtX := fmul (some inp.Vx) rtrX
  let rtY := fmul (some inp.Vy) rtrY
  let atX := fmul (some inp.Vx) atrX
  let atY := fmul (some inp.Vy) atrY
  { marker := p.marker, L := p.L, H := p.H, w := p.w, x := p.x, y := p.y,
    xk := p.xk, yk := p.yk, delta := p.delta, riEW := p.riEW, riNS := p.riNS,
    xbar := xbar, ybar := ybar,
    directRatioX := drX, directRatioY := drY, directX := dX, directY := dY,
    realTorRatioX := rtrX, realTorRatioY := rtrY, realTorX := rtX, realTorY := rtY,
    accTorRatioX := atrX, accTorRatioY := atrY, accTorX := atX, accTorY := atY,
    vX := fadd (fadd dX rtX) (fabs atX),
    vY := fadd (fadd dY rtY) (fabs atY) }

/-- The aggregate scalars of the streamlit variant (rigidity sums via
`np.nansum`, centers with NaN fallback, `Jp`, mass centroid, eccentricities). -/
def mkGlobalsSL (inp : InputsSL) (pre : List PreSL) : GlobalsSL :=
  let sumEW := skipnaSum (pre.map (fun p => p.riEW))
  let sumNS := skipnaSum (pre.map (fun p => p.riNS))
  let xr : FNum :=
    if sumNS = 0 then none
    else some (skipnaSum (pre.map (fun p => fmul p.riNS (some p.xk))) / sumNS)
  let yr : FNum :=
    if sumEW = 0 then none
    else some (skipnaSum (pre.map (fun p => fmul p.riEW (some p.yk))) / sumEW)
  let Jpy := skipnaSum (pre.map (fun p =>
    fmul p.riNS (fmul (fsub (some p.xk) xr) (fsub (some p.xk) xr))))
  let Jpx := skipnaSum (pre.map (fun p =>
    fmul p.riEW (fmul (fsub (some p.yk) yr) (fsub (some p.yk) yr))))
  let Jp := Jpx + Jpy
  let Wtot := (pre.map (fun p => p.w)).sum + inp.diaW
  let xcg : FNum :=
    if Wtot = 0 then none
    else some (((pre.map (fun p => p.w * p.xk)).sum + inp.diaW * (inp.diaX - inp.ox)) / Wtot)
  let ycg : FNum :=
    if Wtot = 0 then none
    else some (((pre.map (fun p => p.w * p.yk)).sum + inp.diaW * (inp.diaY - inp.oy)) / Wtot)
  let exReal := fabs (fsub xcg xr)
  let eyReal := fabs (fsub ycg yr)
  { sumRiEW := sumEW, sumRiNS := sumNS, xr := xr, yr := yr,
    xcg := xcg, ycg := ycg, exReal := exReal, eyReal := eyReal,
    exAcc := (1 / 10) * inp.planX, eyAcc := (1 / 10) * inp.planY,
    Jpx := Jpx, Jpy := Jpy, Jp := Jp, Wtot := Wtot }

/-- `compute_rigid_diaph` of `rigid_streamlit_app.py`.  It never raises: bad
markers get zero rigidity, undefined centers become NaN, and both totals add
the absolute value of their accidental-torsion term.  (The source drops rows
whose marker is empty and whose geometry cells are all NaN; with every field
supplied, as here, nothing is dropped.) -/
def computeSL (inp : InputsSL) (walls : List WallSL) : List RowSL × GlobalsSL :=
  let pre := walls.map (buildRowSL inp)
  let g := mkGlobalsSL inp pre
  (pre.map (finalizeRowSL inp g), g)

/-- Translate a wall's global coordinates by `(a, b)`. -/
def shiftWall (a b : ℚ) (w : WallIn) : WallIn := { w with x := w.x + a, y := w.y + b }

/-- Translate the external coordinates of the inputs by `(a, b)` and grow the
paper offsets by the same amount (the two-run experiment of the offset claim). -/
def shiftInputsR1 (a b : ℚ) (inp : InputsR1) : InputsR1 :=
  { inp with XcmMan := inp.XcmMan + a, YcmMan := inp.YcmMan + b,
             Xoff := inp.Xoff + a, Yoff := inp.Yoff + b }

/-- Translate the raw-coordinate echo of a per-wall loop row by `(a, b)`. -/
def shiftPre (a b : ℚ) (p : RowPre) : RowPre := { p with x := p.x + a, y := p.y + b }

/-- Blank the echoed raw coordinates of an output row (they are input echoes,
not computed quantities). -/
def eraseRawXY (r : RowR1) : RowR1 := { r with x := 0, y := 0 }

/-- Blank the echoed offsets of the summary. -/
def eraseOffsets (s : SummaryR1) : SummaryR1 := { s with Xoff := 0, Yoff := 0 }

/-- Blank the per-wall weight of an input wall. -/
def eraseWkWall (w : WallIn) : WallIn := { w with wk := 0 }

def eraseWkPre (p : RowPre) : RowPre := { p with wk := 0 }

def eraseWkRow (r : RowR1) : RowR1 := { r with wk := 0 }

def eraseWkRowV2 (r : RowV2) : RowV2 := { r with wk := 0 }

def eraseWSummaryV2 (s : SummaryV2) : SummaryV2 := { s with W := 0 }

/-- Replace the diaphragm weight input. -/
def setW (inp : InputsR1) (q : ℚ) : InputsR1 := { inp with W := q }

/-- The rigidity modulus `Di = 4(h/l)^3 + 3(h/l)` as a plain rational. -/
def DiQ (w : WallIn) : ℚ := 4 * (w.ht / w.len) ^ 3 + 3 * (w.ht / w.len)

/-- The streamlit rigidity modulus `delta` as a plain rational. -/
def deltaQSL (w : WallSL) : ℚ := 4 * (w.H / w.L) ^ 3 + 3 * (w.H / w.L)

/-- Nondegenerate four-wall demo layout for the R1-family solvers. -/
def r1DemoInp : InputsR1 :=
  { L := 10, B := 10, XcmMan := 1, YcmMan := 1, W := 5,
    Xoff := 0, Yoff := 0, Fx := 7, Fy := 7 }

def r1DemoWalls : List WallIn :=
  [ { name := "EW1", len := 1, ht := 1, wk := 0, x := 0, y := 0 },
    { name := "EW2", len := 1, ht := 1, wk := 0, x := 0, y := 2 },
    { name := "NS1", len := 1, ht := 1, wk := 0, x := 0, y := 0 },
    { name := "NS2", len := 1, ht := 1, wk := 0, x := 2, y := 0 } ]

/-- The same walls with different per-wall weights (for the noninterference claim). -/
def r1DemoWallsW : List WallIn :=
  [ { name := "EW1", len := 1, ht := 1, wk := 3, x := 0, y := 0 },
    { name := "EW2", len := 1, ht := 1, wk := 4, x := 0, y := 2 },
    { name := "NS1", len := 1, ht := 1, wk := 5, x := 0, y := 0 },
    { name := "NS2", len := 1, ht := 1, wk := 6, x := 2, y := 0 } ]

/-- Nondegenerate demo input for the streamlit variant (`Vy = 0` so the
cross- versus same-axis coupling of the accidental torsion is observable). -/
def slDemoInp : InputsSL :=
  { Vx := 100, Vy := 0, ox := 0, oy := 0, planX := 10, planY := 10,
    diaW := 7, diaX := 1, diaY := 1 }

def slDemoWalls : List WallSL :=
  [ { marker := "EW1", L := 1, H := 1, w := 0, x := 0, y := 0 },
    { marker := "EW2", L := 1, H := 1, w := 0, x := 0, y := 2 },
    { marker := "NS1", L := 1, H := 1, w := 0, x := 0, y := 0 },
    { marker := "NS2", L := 1, H := 1, w := 0, x := 2, y := 0 } ]

/-- Layout with every wall on the respective center-of-rigidity axis, so that
`Jp = 0` (two EW walls at one `y`, two NS walls at one `x`). -/
def jpZeroWalls : List WallIn :=
  [ { name := "EW1", len := 1, ht := 1, wk := 0, x := 0, y := 0 },
    { name := "EW2", len := 1, ht := 1, wk := 0, x := 5, y := 0 },
    { name := "NS1", len := 1, ht := 1, wk := 0, x := 0, y := 0 },
    { name := "NS2", len := 1, ht := 1, wk := 0, x := 0, y := 4 } ]

/-- Streamlit table containing a wall whose marker has no direction prefix. -/
def w1Walls : List WallSL :=
  [ { marker := "W1", L := 1, H := 1, w := 0, x := 0, y := 0 },
    { marker := "EW1", L := 1, H := 1, w := 0, x := 0, y := 0 },
    { marker := "NS1", L := 1, H := 1, w := 0, x := 0, y := 0 } ]

/-- All-east-west layout (no wall resists the y direction). -/
def ewOnlyWalls : List WallIn :=
  [ { name := "EW1", len := 1, ht := 1, wk := 0, x := 0, y := 0 },
    { name := "EW2", len := 1, ht := 1, wk := 0, x := 0, y := 2 } ]

/-- Layout containing a wall of negative length (bad geometry the solver
accepts silently). -/
def negLenWalls : List WallIn :=
  [ { name := "EW1", len := -1, ht := 1, wk := 0, x := 0, y := 0 },
    { name := "EW2", len := 1, ht := 1, wk := 0, x := 0, y := 2 },
    { name := "NS1", len := 1, ht := 1, wk := 0, x := 0, y := 0 },
    { name := "NS2", len := 1, ht := 1, wk := 0, x := 2, y := 0 } ]

/-- Layout containing a wall of zero length (raises `ZeroDivisionError`). -/
def zeroLenWalls : List WallIn :=
  [ { name := "EW1", len := 0, ht := 1, wk := 0, x := 0, y := 0 } ]

theorem mem_insertBy {α : Type} (le : α → α → Bool) (x a : α) (l : List α) :
    a ∈ insertBy le x l ↔ a = x ∨ a ∈ l := by
  induction l with
  | nil => simp [insertBy]
  | cons y ys ih =>
    cases h : le x y with
    | true => simp [insertBy, h]
    | false =>
      simp [insertBy, h, ih]
      tauto

theorem mem_insertionSort {α : Type} (le : α → α → Bool) (a : α) (l : List α) :
    a ∈ insertionSort le l ↔ a ∈ l := by
  induction l with
  | nil => simp [insertionSort]
  | cons x xs ih => simp [insertionSort, mem_insertBy, ih]

theorem exMapM_ok_forall {α β ε : Type} (f : α → Except ε β) :
    ∀ {l : List α} {res : List β}, exMapM f l = .ok res →
      ∀ a ∈ l, ∃ b, f a = .ok b := by
  intro l
  induction l with
  | nil => intro res h a ha; exact absurd ha (by simp)
  | cons x xs ih =>
    intro res h a ha
    unfold exMapM at h
    cases hx : f x with
    | error e => rw [hx] at h; exact absurd h (by simp)
    | ok b =>
      rw [hx] at h
      cases hxs : exMapM f xs with
      | error e => rw [hxs] at h; exact absurd h (by simp)
      | ok bs =>
        rcases List.mem_cons.mp ha with rfl | ha2
        · exact ⟨b, hx⟩
        · exact ih hxs a ha2

theorem exMapM_ok_forall_mem {α β ε : Type} (f : α → Except ε β) :
    ∀ {l : List α} {res : List β}, exMapM f l = .ok res →
      ∀ b ∈ res, ∃ a, a ∈ l ∧ f a = .ok b := by
  intro l
  induction l with
  | nil =>
    intro res h b hb
    unfold exMapM at h
    cases h
    exact absurd hb (by simp)
  | cons x xs ih =>
    intro res h b hb
    unfold exMapM at h
    cases hx : f x with
    | error e => rw [hx] at h; exact absurd h (by simp)
    | ok b0 =>
      rw [hx] at h
      cases hxs : exMapM f xs with
      | error e => rw [hxs] at h; exact absurd h (by simp)
      | ok bs =>
        rw [hxs] at h
        cases h
        rcases List.mem_cons.mp hb with rfl | hb2
        · exact ⟨x, List.mem_cons_self x xs, hx⟩
        · obtain ⟨a, ha, hfa⟩ := ih hxs b hb2
          exact ⟨a, List.mem_cons_of_mem x ha, hfa⟩

theorem exMapM_error_of_mem {α β ε : Type} (f : α → Except ε β) {l : List α}
    {a : α} (ha : a ∈ l) (he : ∃ e, f a = .error e) :
    ∃ e2, exMapM f l = .error e2 := by
  induction l with
  | nil => exact absurd ha (by simp)
  | cons x xs ih =>
    rcases List.mem_cons.mp ha with rfl | ha2
    · obtain ⟨e, hfe⟩ := he
      refine ⟨e, ?_⟩
      unfold exMapM
      rw [hfe]
    · cases hx : f x with
      | error e => exact ⟨e, by unfold exMapM; rw [hx]⟩
      | ok b =>
        obtain ⟨e2, h2⟩ := ih ha2
        refine ⟨e2, ?_⟩
        unfold exMapM
        rw [hx, h2]

theorem exMapM_ok_map_eq {α β γ : Type} {ε : Type} (f : α → Except ε β)
    (g : β → γ) (h : α → γ) :
    ∀ {l : List α} {res : List β}, exMapM f l = .ok res →
      (∀ a b, f a = .ok b → g b = h a) → res.map g = l.map h := by
  intro l
  induction l with
  | nil =>
    intro res hok hgh
    unfold exMapM at hok
    cases hok
    rfl
  | cons x xs ih =>
    intro res hok hgh
    unfold exMapM at hok
    cases hx : f x with
    | error e => rw [hx] at hok; exact absurd hok (by simp)
    | ok b =>
      rw [hx] at hok
      cases hxs : exMapM f xs with
      | error e => rw [hxs] at hok; exact absurd hok (by simp)
      | ok bs =>
        rw [hxs] at hok
        cases hok
        simp only [List.map_cons]
        rw [hgh x b hx, ih hxs hgh]

theorem exMapM_cons_error {α β ε : Type} (f : α → Except ε β) {x : α} {e : ε}
    (hx : f x = .error e) (xs : List α) : exMapM f (x :: xs) = .error e := by
  simp only [exMapM]
  rw [hx]

theorem exMapM_cons_ok {α β ε : Type} (f : α → Except ε β) {x : α} {b : β}
    (hx : f x = .ok b) (xs : List α) :
    exMapM f (x :: xs) = (exMapM f xs).map (fun bs => b :: bs) := by
  cases hxs : exMapM f xs with
  | error e =>
    simp only [exMapM]
    rw [hx, hxs]
    rfl
  | ok bs =>
    simp only [exMapM]
    rw [hx, hxs]
    rfl

theorem exMapM_map {α β γ : Type} {ε : Type} (f : α → Except ε β) (E : β → γ)
    (l : List α) :
    (exMapM f l).map (List.map E) = exMapM (fun x => (f x).map E) l := by
  induction l with
  | nil => rfl
  | cons x xs ih =>
    cases hx : f x with
    | error e =>
      have hx2 : (fun y => (f y).map E) x = .error e := by
        simp only [hx]
        rfl
      rw [exMapM_cons_error f hx, exMapM_cons_error (fun y => (f y).map E) hx2 xs]
      rfl
    | ok b =>
      have hx2 : (fun y => (f y).map E) x = .ok (E b) := by
        simp only [hx]
        rfl
      rw [exMapM_cons_ok f hx, exMapM_cons_ok (fun y => (f y).map E) hx2 xs, ← ih]
      cases exMapM f xs <;> rfl

theorem exMapM_comp {α α2 β : Type} {ε : Type} (σ : α → α2) (g : α2 → Except ε β)
    (l : List α) : exMapM g (l.map σ) = exMapM (fun x => g (σ x)) l := by
  induction l with
  | nil => rfl
  | cons x xs ih =>
    unfold exMapM
    simp only [List.map_cons]
    rw [ih]

theorem computeR1_ok_elim {inp : InputsR1} {walls : List WallIn}
    {res : List RowR1 × SummaryR1} (h : computeR1 inp walls = .ok res) :
    ∃ pre, exMapM (buildRowR1 inp.Xoff inp.Yoff) walls = .ok pre ∧ pre ≠ [] ∧
      res.fst = pre.map (finalizeRowR1 inp.Fx inp.Fy (mkCtxR1 inp pre)) ∧
      res.snd = mkSummaryR1 inp (mkCtxR1 inp pre) := by
  unfold computeR1 at h
  cases he : exMapM (buildRowR1 inp.Xoff inp.Yoff) walls with
  | error e => rw [he] at h; exact absurd h (by simp)
  | ok pre =>
    rw [he] at h
    cases pre with
    | nil => exact absurd h (by simp)
    | cons p ps =>
      simp only [Except.ok.injEq] at h
      subst h
      exact ⟨p :: ps, rfl, by simp, rfl, rfl⟩

theorem computeAppR1_ok_elim {inp : InputsR1} {walls : List WallIn}
    {res : List RowR1 × SummaryR1} (h : computeAppR1 inp walls = .ok res) :
    ∃ res0, computeR1 inp walls = .ok res0 ∧
      res.fst = insertionSort rowLeR1 res0.fst ∧ res.snd = res0.snd := by
  unfold computeAppR1 at h
  cases h0 : computeR1 inp walls with
  | error e => rw [h0] at h; exact absurd h (by simp)
  | ok res0 =>
    rw [h0] at h
    simp only [Except.ok.injEq] at h
    subst h
    exact ⟨res0, rfl, rfl, rfl⟩

theorem computeV2_ok_elim {inp : InputsR1} {walls : List WallIn}
    {res : List RowV2 × SummaryV2} (h : computeV2 inp walls = .ok res) :
    ∃ pre, exMapM (buildRowR1 inp.Xoff inp.Yoff) walls = .ok pre ∧
      (mkCtxV2 inp (insertionSort preLeR1 pre)).Jp ≠ 0 ∧
      res.fst = (insertionSort preLeR1 pre).map
        (finalizeRowV2 inp.Fx inp.Fy (mkCtxV2 inp (insertionSort preLeR1 pre))) ∧
      res.snd = mkSummaryV2 inp (mkCtxV2 inp (insertionSort preLeR1 pre)) := by
  unfold computeV2 at h
  by_cases hw : walls.isEmpty
  · rw [if_pos hw] at h; exact absurd h (by simp)
  · rw [if_neg hw] at h
    cases he : exMapM (buildRowR1 inp.Xoff inp.Yoff) walls with
    | error e => rw [he] at h; exact absurd h (by simp)
    | ok pre =>
      rw [he] at h
      simp only at h
      by_cases hj : (mkCtxV2 inp (insertionSort preLeR1 pre)).Jp = 0
      · rw [if_pos hj] at h; exact absurd h (by simp)
      · rw [if_neg hj] at h
        simp only [Except.ok.injEq] at h
        subst h
        exact ⟨pre, rfl, hj, rfl, rfl⟩

/-- C1 counterexample: on the streamlit variant the accidental-torsion shear is
multiplied by the same-axis force.  At the demo input (`Vx = 100`, `Vy = 0`)
wall EW2 has `AccTorRatio_X = 1/4` and `AccTor_X = 25 ≠ Vy·AccTorRatio_X = 0`,
so the cross-coupling stated for every solver variant is false. -/
theorem c1_counterexample :
    ¬ (∀ r ∈ (computeSL slDemoInp slDemoWalls).fst,
        r.accTorX = fmul (some slDemoInp.Vy) r.accTorRatioX) := by
  with_unfolding_all decide

/-- C1 (amended): the three `compute_rigid_diaphragm` variants cross-couple the
accidental-torsion shears (`Vx_Acc_Tor = Fy·AccTorRatio_x` and
`Vy_Acc_Tor = Fx·AccTorRatio_y` for every output wall); the streamlit
`compute_rigid_diaph` instead multiplies each accidental-torsion ratio by the
same-axis force (`AccTor_X = Vx·AccTorRatio_X`, `AccTor_Y = Vy·AccTorRatio_Y`). -/
theorem c1_amended :
    (∀ inp walls res, computeR1 inp walls = Except.ok res →
      ∀ r ∈ res.fst, r.vxAccTor = fmul (some inp.Fy) r.accTorRatioX ∧
        r.vyAccTor = fmul (some inp.Fx) r.accTorRatioY) ∧
    (∀ inp walls res, computeAppR1 inp walls = Except.ok res →
      ∀ r ∈ res.fst, r.vxAccTor = fmul (some inp.Fy) r.accTorRatioX ∧
        r.vyAccTor = fmul (some inp.Fx) r.accTorRatioY) ∧
    (∀ inp walls res, computeV2 inp walls = Except.ok res →
      ∀ r ∈ res.fst, r.vxAccTor = inp.Fy * r.accTorRatioX ∧
        r.vyAccTor = inp.Fx * r.accTorRatioY) ∧
    (∀ inp walls, ∀ r ∈ (computeSL inp walls).fst,
      r.accTorX = fmul (some inp.Vx) r.accTorRatioX ∧
      r.accTorY = fmul (some inp.Vy) r.accTorRatioY) := by
  refine ⟨?_, ?_, ?_, ?_⟩
  · intro inp walls res hok r hr
    obtain ⟨pre, hpre, hne, hfst, hsnd⟩ := computeR1_ok_elim hok
    rw [hfst] at hr
    obtain ⟨p, hp, rfl⟩ := List.mem_map.mp hr
    exact ⟨rfl, rfl⟩
  · intro inp walls res hok r hr
    obtain ⟨res0, h0, hfst, hsnd⟩ := computeAppR1_ok_elim hok
    rw [hfst, mem_insertionSort] at hr
    obtain ⟨pre, hpre, hne, hfst0, hsnd0⟩ := computeR1_ok_elim h0
    rw [hfst0] at hr
    obtain ⟨p, hp, rfl⟩ := List.mem_map.mp hr
    exact ⟨rfl, rfl⟩
  · intro inp walls res hok r hr
    obtain ⟨pre, hpre, hjp, hfst, hsnd⟩ := computeV2_ok_elim hok
    rw [hfst] at hr
    obtain ⟨p, hp, rfl⟩ := List.mem_map.mp hr
    exact ⟨rfl, rfl⟩
  · intro inp walls r hr
    obtain ⟨p, hp, rfl⟩ := List.mem_map.mp hr
    exact ⟨rfl, rfl⟩

/-- C1 witness: the amended cross-coupling equality instantiated on the demo
layout, with every output row checked concretely. -/
theorem c1_witness :
    ((computeR1 r1DemoInp r1DemoWalls).toOption.map (fun res =>
      res.fst.all (fun r =>
        decide (r.vxAccTor = fmul (some r1DemoInp.Fy) r.accTorRatioX)))) = some true := by
  cases hres : computeR1 r1DemoInp r1DemoWalls with
  | error e =>
    have hOk : exIsOk (computeR1 r1DemoInp r1DemoWalls) = true := by
      with_unfolding_all decide
    rw [hres] at hOk
    exact absurd hOk (by simp [exIsOk])
  | ok res =>
    have hall := c1_amended.1 r1DemoInp r1DemoWalls res hres
    simp only [Except.toOption, Option.map_some']
    rw [Option.some.injEq, List.all_eq_true]
    intro r hr
    exact decide_eq_true ((hall r hr).1)

/-- C2 counterexample: the streamlit variant adds the absolute value of the X
accidental-torsion term as well.  At the demo input wall EW1 has
`AccTor_X = -25` and `V_X = 50 + 0 + 25 = 75`, not the signed sum
`RealTor_X + Direct_X + AccTor_X = 25`, so the claimed asymmetric totals do
not hold in every solver variant. -/
theorem c2_counterexample :
    ¬ (∀ r ∈ (computeSL slDemoInp slDemoWalls).fst,
        r.vX = fadd (fadd r.realTorX r.directX) r.accTorX) := by
  with_unfolding_all decide

/-- C2 (amended): the three `compute_rigid_diaphragm` variants form
`Vx = Vx_RealTor + Direct_x + Vx_AccTor` (signed) and
`Vy = Vy_RealTor + Direct_y + |Vy_AccTor|`; the streamlit variant instead
takes the absolute value of the accidental-torsion term in both totals
(`V_X = Direct_X + RealTor_X + |AccTor_X|`, likewise for Y). -/
theorem c2_amended :
    (∀ inp walls res, computeR1 inp walls = Except.ok res →
      ∀ r ∈ res.fst, r.vxTot = fadd (fadd r.vxRealTor (some r.directX)) r.vxAccTor ∧
        r.vyTot = fadd (fadd r.vyRealTor (some r.directY)) (fabs r.vyAccTor)) ∧
    (∀ inp walls res, computeAppR1 inp walls = Except.ok res →
      ∀ r ∈ res.fst, r.vxTot = fadd (fadd r.vxRealTor (some r.directX)) r.vxAccTor ∧
        r.vyTot = fadd (fadd r.vyRealTor (some r.directY)) (fabs r.vyAccTor)) ∧
    (∀ inp walls res, computeV2 inp walls = Except.ok res →
      ∀ r ∈ res.fst, r.vxTot = r.vxRealTor + r.directX + r.vxAccTor ∧
        r.vyTot = r.vyRealTor + r.directY + abs r.vyAccTor) ∧
    (∀ inp walls, ∀ r ∈ (computeSL inp walls).fst,
      r.vX = fadd (fadd r.directX r.realTorX) (fabs r.accTorX) ∧
      r.vY = fadd (fadd r.directY r.realTorY) (fabs r.accTorY)) := by
  refine ⟨?_, ?_, ?_, ?_⟩
  · intro inp walls res hok r hr
    obtain ⟨pre, hpre, hne, hfst, hsnd⟩ := computeR1_ok_elim hok
    rw [hfst] at hr
    obtain ⟨p, hp, rfl⟩ := List.mem_map.mp hr
    exact ⟨rfl, rfl⟩
  · intro inp walls res hok r hr
    obtain ⟨res0, h0, hfst, hsnd⟩ := computeAppR1_ok_elim hok
    rw [hfst, mem_insertionSort] at hr
    obtain ⟨pre, hpre, hne, hfst0, hsnd0⟩ := computeR1_ok_elim h0
    rw [hfst0] at hr
    obtain ⟨p, hp, rfl⟩ := List.mem_map.mp hr
    exact ⟨rfl, rfl⟩
  · intro inp walls res hok r hr
    obtain ⟨pre, hpre, hjp, hfst, hsnd⟩ := computeV2_ok_elim hok
    rw [hfst] at hr
    obtain ⟨p, hp, rfl⟩ := List.mem_map.mp hr
    exact ⟨rfl, rfl⟩
  · intro inp walls r hr
    obtain ⟨p, hp, rfl⟩ := List.mem_map.mp hr
    exact ⟨rfl, rfl⟩

/-- C2 witness: the amended totals identity instantiated on the demo layout. -/
theorem c2_witness :
    ((computeR1 r1DemoInp r1DemoWalls).toOption.map (fun res =>
      res.fst.all (fun r =>
        decide (r.vyTot = fadd (fadd r.vyRealTor (some r.directY)) (fabs r.vyAccTor))))) =
      some true := by
  cases hres : computeR1 r1DemoInp r1DemoWalls with
  | error e =>
    have hOk : exIsOk (computeR1 r1DemoInp r1DemoWalls) = true := by
      with_unfolding_all decide
    rw [hres] at hOk
    exact absurd hOk (by simp [exIsOk])
  | ok res =>
    have hall := c2_amended.1 r1DemoInp r1DemoWalls res hres
    simp only [Except.toOption, Option.map_some']
    rw [Option.some.injEq, List.all_eq_true]
    intro r hr
    exact decide_eq_true ((hall r hr).2)

@[simp] theorem fmul_none_right (x : FNum) : fmul x none = none := by cases x <;> rfl

@[simp] theorem fmul_none_left (x : FNum) : fmul none x = none := rfl

@[simp] theorem fadd_none_right (x : FNum) : fadd x none = none := by cases x <;> rfl

@[simp] theorem fadd_none_left (x : FNum) : fadd none x = none := rfl

@[simp] theorem fsub_none_right (x : FNum) : fsub x none = none := by cases x <;> rfl

@[simp] theorem fsub_none_left (x : FNum) : fsub none x = none := rfl

@[simp] theorem fdiv_none_left (x : FNum) : fdiv none x = none := rfl

@[simp] theorem fdiv_none_right (x : FNum) : fdiv x none = none := by cases x <;> rfl

@[simp] theorem fabs_none : fabs none = none := rfl

@[simp] theorem fdiv_some_zero (x : FNum) : fdiv x (some 0) = none := by
  cases x <;> simp [fdiv]

theorem finalizeRowR1_jp_zero (Fx Fy : ℚ) (c : CtxR1) (p : RowPre)
    (h : c.Jp = 0) :
    (finalizeRowR1 Fx Fy c p).realTorRatioX = none ∧
    (finalizeRowR1 Fx Fy c p).realTorRatioY = none ∧
    (finalizeRowR1 Fx Fy c p).accTorRatioX = none ∧
    (finalizeRowR1 Fx Fy c p).accTorRatioY = none ∧
    (finalizeRowR1 Fx Fy c p).vxTot = none ∧
    (finalizeRowR1 Fx Fy c p).vyTot = none := by
  unfold finalizeRowR1
  simp [h]

/-- C3 counterexample: the R1 solver has no `Jp = 0` guard.  On a symmetric
layout whose torsional rigidity vanishes it returns a result table whose
summary reports `Jp = 0` and whose X totals are all the non-finite sentinel —
it does not abort the solve. -/
theorem c3_counterexample :
    (computeR1 r1DemoInp jpZeroWalls).toOption.map (fun res =>
      (res.snd.Jp, res.fst.map (fun r => r.vxTot))) =
    some (0, [none, none, none, none]) := by
  with_unfolding_all decide

/-- C3 (amended): only the v2 variant aborts on a vanishing polar rigidity —
it never returns a result whose `Jp` is zero; the R1 variant (and the app
front end built on the same computation) returns a table in which every
torsion ratio and both totals of every wall are the non-finite sentinel, and
the streamlit variant likewise silently substitutes non-finite torsion ratios
and totals. -/
theorem c3_amended :
    (∀ inp walls res, computeV2 inp walls = Except.ok res → res.snd.Jp ≠ 0) ∧
    (∀ inp walls res, computeR1 inp walls = Except.ok res → res.snd.Jp = 0 →
      ∀ r ∈ res.fst, r.realTorRatioX = none ∧ r.realTorRatioY = none ∧
        r.accTorRatioX = none ∧ r.accTorRatioY = none ∧
        r.vxTot = none ∧ r.vyTot = none) ∧
    (∀ inp walls, (computeSL inp walls).snd.Jp = 0 →
      ∀ r ∈ (computeSL inp walls).fst, r.realTorRatioX = none ∧
        r.realTorRatioY = none ∧ r.accTorRatioX = none ∧ r.accTorRatioY = none ∧
        r.vX = none ∧ r.vY = none) := by
  refine ⟨?_, ?_, ?_⟩
  · intro inp walls res hok
    obtain ⟨pre, hpre, hjp, hfst, hsnd⟩ := computeV2_ok_elim hok
    rw [hsnd]
    exact hjp
  · intro inp walls res hok hjp r hr
    obtain ⟨pre, hpre, hne, hfst, hsnd⟩ := computeR1_ok_elim hok
    rw [hsnd] at hjp
    rw [hfst] at hr
    obtain ⟨p, hp, rfl⟩ := List.mem_map.mp hr
    exact finalizeRowR1_jp_zero inp.Fx inp.Fy (mkCtxR1 inp pre) p hjp
  · intro inp walls hjp r hr
    have hj : (mkGlobalsSL inp (walls.map (buildRowSL inp))).Jp = 0 := hjp
    obtain ⟨p, hp, rfl⟩ := List.mem_map.mp hr
    unfold finalizeRowSL
    simp [hj]

/-- C3 witness: the v2 guard instantiated on the nondegenerate demo layout. -/
theorem c3_witness :
    ((computeV2 r1DemoInp r1DemoWalls).toOption.map (fun res =>
      decide (res.snd.Jp ≠ 0))) = some true := by
  cases hres : computeV2 r1DemoInp r1DemoWalls with
  | error e =>
    have hOk : exIsOk (computeV2 r1DemoInp r1DemoWalls) = true := by
      with_unfolding_all decide
    rw [hres] at hOk
    exact absurd hOk (by simp [exIsOk])
  | ok res =>
    have h := c3_amended.1 r1DemoInp r1DemoWalls res hres
    simp only [Except.toOption, Option.map_some', Option.some.injEq]
    exact decide_eq_true h

theorem wallOrientationFactors_ok {nm : String} {Di : ℚ} {rf : ℚ × ℚ}
    (h : wallOrientationFactors nm Di = .ok rf) :
    nameHasEW nm = true ∨ nameHasNS nm = true := by
  unfold wallOrientationFactors at h
  by_cases h1 : nameHasEW nm = true
  · exact Or.inl h1
  · rw [if_neg h1] at h
    by_cases h2 : nameHasNS nm = true
    · exact Or.inr h2
    · rw [if_neg h2] at h
      exact absurd h (by simp)

theorem buildRowR1_ok_classified {Xoff Yoff : ℚ} {w : WallIn} {p : RowPre}
    (h : buildRowR1 Xoff Yoff w = .ok p) :
    nameHasEW (strTrim w.name) = true ∨ nameHasNS (strTrim w.name) = true := by
  simp only [buildRowR1] at h
  by_cases hl : w.len = 0
  · rw [if_pos hl] at h
    exact absurd h (by simp)
  · rw [if_neg hl] at h
    cases ho : wallOrientationFactors (strTrim w.name)
        (4 * (w.ht / w.len) ^ 3 + 3 * (w.ht / w.len)) with
    | error e => rw [ho] at h; exact absurd h (by simp)
    | ok rf => exact wallOrientationFactors_ok ho

/-- C4 counterexample: the streamlit variant does not reject a wall whose
marker carries no direction; `"W1"` sails through and appears in the output
with zero rigidity in both directions, instead of the solve failing. -/
theorem c4_counterexample :
    (computeSL slDemoInp w1Walls).fst.map (fun r => (r.marker, r.riEW, r.riNS)) =
      [("W1", some 0, some 0), ("EW1", some ((1 : ℚ)/7), some 0),
       ("NS1", some 0, some ((1 : ℚ)/7))] := by
  with_unfolding_all decide

/-- C4 (amended): the three `compute_rigid_diaphragm` variants only succeed
when every (trimmed) wall name contains `EW` or `NS` case-insensitively — an
unclassifiable name aborts the solve; the streamlit variant instead keeps such
a wall, silently assigning it zero rigidity in both directions, and the wall
appears in the output table. -/
theorem c4_amended :
    (∀ inp walls res, computeR1 inp walls = Except.ok res →
      ∀ w ∈ walls, nameHasEW (strTrim w.name) = true ∨ nameHasNS (strTrim w.name) = true) ∧
    (∀ inp walls res, computeAppR1 inp walls = Except.ok res →
      ∀ w ∈ walls, nameHasEW (strTrim w.name) = true ∨ nameHasNS (strTrim w.name) = true) ∧
    (∀ inp walls res, computeV2 inp walls = Except.ok res →
      ∀ w ∈ walls, nameHasEW (strTrim w.name) = true ∨ nameHasNS (strTrim w.name) = true) ∧
    (∀ inp walls, ∀ w ∈ walls, startsEW (strTrim w.marker) = false →
      startsNS (strTrim w.marker) = false →
      ∃ r ∈ (computeSL inp walls).fst,
        r.marker = strTrim w.marker ∧ r.riEW = some 0 ∧ r.riNS = some 0) := by
  refine ⟨?_, ?_, ?_, ?_⟩
  · intro inp walls res hok w hw
    obtain ⟨pre, hpre, hne, hfst, hsnd⟩ := computeR1_ok_elim hok
    obtain ⟨p, hp⟩ := exMapM_ok_forall _ hpre w hw
    exact buildRowR1_ok_classified hp
  · intro inp walls res hok w hw
    obtain ⟨res0, h0, hfst, hsnd⟩ := computeAppR1_ok_elim hok
    obtain ⟨pre, hpre, hne, hfst0, hsnd0⟩ := computeR1_ok_elim h0
    obtain ⟨p, hp⟩ := exMapM_ok_forall _ hpre w hw
    exact buildRowR1_ok_classified hp
  · intro inp walls res hok w hw
    obtain ⟨pre, hpre, hjp, hfst, hsnd⟩ := computeV2_ok_elim hok
    obtain ⟨p, hp⟩ := exMapM_ok_forall _ hpre w hw
    exact buildRowR1_ok_classified hp
  · intro inp walls w hw hEW hNS
    refine ⟨finalizeRowSL inp (mkGlobalsSL inp (walls.map (buildRowSL inp)))
        (buildRowSL inp w), ?_, rfl, ?_, ?_⟩
    · exact List.mem_map.mpr ⟨buildRowSL inp w, List.mem_map.mpr ⟨w, hw, rfl⟩, rfl⟩
    · show (buildRowSL inp w).riEW = some 0
      simp [buildRowSL, hEW]
    · show (buildRowSL inp w).riNS = some 0
      simp [buildRowSL, hNS]

/-- C4 witness: the silent zero-rigidity default exhibited on the concrete
table containing the unclassifiable wall `"W1"`. -/
theorem c4_witness :
    ∃ r ∈ (computeSL slDemoInp w1Walls).fst,
      r.marker = strTrim "W1" ∧ r.riEW = some 0 ∧ r.riNS = some 0 := by
  exact c4_amended.2.2.2 slDemoInp w1Walls
    { marker := "W1", L := 1, H := 1, w := 0, x := 0, y := 0 }
    (by simp [w1Walls]) (by with_unfolding_all decide) (by with_unfolding_all decide)

theorem mkCtxR1_Xcr_zero (inp : InputsR1) (pre : List RowPre)
    (h : (mkCtxR1 inp pre).sumRiy = 0) : (mkCtxR1 inp pre).Xcr = none := by
  dsimp only [mkCtxR1] at h ⊢
  rw [if_pos h]

theorem mkCtxR1_Ycr_zero (inp : InputsR1) (pre : List RowPre)
    (h : (mkCtxR1 inp pre).sumRix = 0) : (mkCtxR1 inp pre).Ycr = none := by
  dsimp only [mkCtxR1] at h ⊢
  rw [if_pos h]

theorem mkCtxR1_Xcr_nonzero (inp : InputsR1) (pre : List RowPre)
    (h : (mkCtxR1 inp pre).sumRiy ≠ 0) : ∃ q, (mkCtxR1 inp pre).Xcr = some q := by
  dsimp only [mkCtxR1] at h ⊢
  rw [if_neg h]
  exact ⟨_, rfl⟩

theorem mkCtxR1_Ycr_nonzero (inp : InputsR1) (pre : List RowPre)
    (h : (mkCtxR1 inp pre).sumRix ≠ 0) : ∃ q, (mkCtxR1 inp pre).Ycr = some q := by
  dsimp only [mkCtxR1] at h ⊢
  rw [if_neg h]
  exact ⟨_, rfl⟩

/-- C7 counterexample: the v2 variant reports the undefined center-of-rigidity
coordinate as the number `0.0`, not as a NaN sentinel.  On an all-EW layout it
returns (rather than raising) a summary with `sum_Riy = 0` and `Xcr = 0`. -/
theorem c7_counterexample :
    (computeV2 r1DemoInp ewOnlyWalls).toOption.map (fun res =>
      (res.snd.sumRiy, res.snd.Xcr)) = some (0, 0) := by
  with_unfolding_all decide

/-- C7 (amended): when a rigidity sum is zero the R1 solver, the app front end
built on it, and the streamlit variant all report the corresponding
center-of-rigidity coordinate as the NaN sentinel without raising (and a
nonzero sum yields a finite coordinate); the v2 variant substitutes `0.0`
instead of the sentinel. -/
theorem c7_amended :
    (∀ inp walls res, computeR1 inp walls = Except.ok res →
      (res.snd.sumRiy = 0 → res.snd.Xcr = none) ∧
      (res.snd.sumRix = 0 → res.snd.Ycr = none) ∧
      (res.snd.sumRiy ≠ 0 → ∃ q, res.snd.Xcr = some q) ∧
      (res.snd.sumRix ≠ 0 → ∃ q, res.snd.Ycr = some q)) ∧
    (∀ inp walls res, computeAppR1 inp walls = Except.ok res →
      (res.snd.sumRiy = 0 → res.snd.Xcr = none) ∧
      (res.snd.sumRix = 0 → res.snd.Ycr = none)) ∧
    (∀ inp walls,
      ((computeSL inp walls).snd.sumRiNS = 0 → (computeSL inp walls).snd.xr = none) ∧
      ((computeSL inp walls).snd.sumRiEW = 0 → (computeSL inp walls).snd.yr = none)) ∧
    (∀ inp walls res, computeV2 inp walls = Except.ok res →
      (res.snd.sumRiy = 0 → res.snd.Xcr = 0) ∧
      (res.snd.sumRix = 0 → res.snd.Ycr = 0)) := by
  refine ⟨?_, ?_, ?_, ?_⟩
  · intro inp walls res hok
    obtain ⟨pre, hpre, hne, hfst, hsnd⟩ := computeR1_ok_elim hok
    rw [hsnd]
    exact ⟨mkCtxR1_Xcr_zero inp pre, mkCtxR1_Ycr_zero inp pre,
      mkCtxR1_Xcr_nonzero inp pre, mkCtxR1_Ycr_nonzero inp pre⟩
  · intro inp walls res hok
    obtain ⟨res0, h0, hfst, hsnd⟩ := computeAppR1_ok_elim hok
    obtain ⟨pre, hpre, hne, hfst0, hsnd0⟩ := computeR1_ok_elim h0
    rw [hsnd, hsnd0]
    exact ⟨mkCtxR1_Xcr_zero inp pre, mkCtxR1_Ycr_zero inp pre⟩
  · intro inp walls
    constructor
    · intro h
      show (mkGlobalsSL inp (walls.map (buildRowSL inp))).xr = none
      have h2 : (mkGlobalsSL inp (walls.map (buildRowSL inp))).sumRiNS = 0 := h
      dsimp only [mkGlobalsSL] at h2 ⊢
      rw [if_pos h2]
    · intro h
      show (mkGlobalsSL inp (walls.map (buildRowSL inp))).yr = none
      have h2 : (mkGlobalsSL inp (walls.map (buildRowSL inp))).sumRiEW = 0 := h
      dsimp only [mkGlobalsSL] at h2 ⊢
      rw [if_pos h2]
  · intro inp walls res hok
    obtain ⟨pre, hpre, hjp, hfst, hsnd⟩ := computeV2_ok_elim hok
    rw [hsnd]
    constructor
    · intro h
      dsimp only [mkSummaryV2, mkCtxV2] at h ⊢
      rw [if_pos h]
    · intro h
      dsimp only [mkSummaryV2, mkCtxV2] at h ⊢
      rw [if_pos h]

/-- C7 witness: the NaN sentinel of the R1 solver exhibited on the concrete
all-EW layout. -/
theorem c7_witness :
    ((computeR1 r1DemoInp ewOnlyWalls).toOption.map (fun res =>
      decide (res.snd.Xcr = none))) = some true := by
  cases hres : computeR1 r1DemoInp ewOnlyWalls with
  | error e =>
    have hOk : exIsOk (computeR1 r1DemoInp ewOnlyWalls) = true := by
      with_unfolding_all decide
    rw [hres] at hOk
    exact absurd hOk (by simp [exIsOk])
  | ok res =>
    have hsum0 : ((computeR1 r1DemoInp ewOnlyWalls).toOption.map (fun res =>
        decide (res.snd.sumRiy = 0))) = some true := by
      with_unfolding_all decide
    rw [hres] at hsum0
    simp only [Except.toOption, Option.map_some', Option.some.injEq,
      decide_eq_true_eq] at hsum0
    have h := ((c7_amended.1 r1DemoInp ewOnlyWalls res hres).1) hsum0
    simp only [Except.toOption, Option.map_some', Option.some.injEq]
    exact decide_eq_true h

theorem buildRowR1_ok_EW_Riy {Xoff Yoff : ℚ} {w : WallIn} {p : RowPre}
    (h : buildRowR1 Xoff Yoff w = .ok p)
    (hew : nameHasEW (strTrim w.name) = true) : p.Riy = 0 := by
  simp only [buildRowR1] at h
  by_cases hl : w.len = 0
  · rw [if_pos hl] at h
    exact absurd h (by simp)
  · rw [if_neg hl] at h
    cases ho : wallOrientationFactors (strTrim w.name)
        (4 * (w.ht / w.len) ^ 3 + 3 * (w.ht / w.len)) with
    | error e => rw [ho] at h; exact absurd h (by simp)
    | ok rf =>
      rw [ho] at h
      simp only [Except.ok.injEq] at h
      unfold wallOrientationFactors at ho
      rw [if_pos hew] at ho
      by_cases hd : (4 * (w.ht / w.len) ^ 3 + 3 * (w.ht / w.len)) = 0
      · rw [if_pos hd] at ho
        exact absurd ho (by simp)
      · rw [if_neg hd] at ho
        simp only [Except.ok.injEq] at ho
        rw [← h]
        show rf.2 = 0
        rw [← ho]

theorem finalizeRowR1_y_none (Fx Fy : ℚ) (c : CtxR1) (p : RowPre)
    (hXcr : c.Xcr = none) (hsum : c.sumRiy = 0) :
    (finalizeRowR1 Fx Fy c p).directY = 0 ∧
    (finalizeRowR1 Fx Fy c p).realTorRatioY = none ∧
    (finalizeRowR1 Fx Fy c p).vyRealTor = none ∧
    (finalizeRowR1 Fx Fy c p).vyAccTor = none ∧
    (finalizeRowR1 Fx Fy c p).vyTot = none := by
  unfold finalizeRowR1
  simp [hXcr, hsum]

/-- C8 counterexample: on an all-east-west layout the R1 solver computes `Ycr`
just fine (the value 1 here) — it is `Xcr` that becomes the NaN sentinel — and
the per-wall y real-torsion shear is the non-finite sentinel, not zero. -/
theorem c8_counterexample :
    (computeR1 r1DemoInp ewOnlyWalls).toOption.map (fun res =>
      (res.snd.Ycr, res.snd.sumRiy, res.fst.map (fun r => r.vyRealTor))) =
    some (some 1, 0, [none, none]) := by
  with_unfolding_all decide

/-- C8 (amended): if every wall of a successful R1 solve is classified
east-west then `sum_Riy = 0` and it is `Xcr` (not `Ycr`) that is the NaN
sentinel; per wall the direct y shear is zero, while the y torsion ratio,
shear, accidental-torsion shear and y total are all the non-finite sentinel
(poisoned by the undefined `Xcr`); when `sum_Rix ≠ 0` the coordinate `Ycr`
remains a finite number. -/
theorem c8_amended :
    ∀ inp walls res, computeR1 inp walls = Except.ok res →
      (∀ w ∈ walls, nameHasEW (strTrim w.name) = true) →
      res.snd.sumRiy = 0 ∧ res.snd.Xcr = none ∧
      (∀ r ∈ res.fst, r.directY = 0 ∧ r.realTorRatioY = none ∧
        r.vyRealTor = none ∧ r.vyAccTor = none ∧ r.vyTot = none) ∧
      (res.snd.sumRix ≠ 0 → ∃ q, res.snd.Ycr = some q) := by
  intro inp walls res hok hall
  obtain ⟨pre, hpre, hne, hfst, hsnd⟩ := computeR1_ok_elim hok
  have hRiy : ∀ p ∈ pre, p.Riy = 0 := by
    intro p hp
    obtain ⟨w, hw, hbw⟩ := exMapM_ok_forall_mem _ hpre p hp
    exact buildRowR1_ok_EW_Riy hbw (hall w hw)
  have hsum : (mkCtxR1 inp pre).sumRiy = 0 := by
    show (pre.map (fun p => p.Riy)).sum = 0
    apply List.sum_eq_zero
    intro x hx
    obtain ⟨p, hp, rfl⟩ := List.mem_map.mp hx
    exact hRiy p hp
  have hXcr := mkCtxR1_Xcr_zero inp pre hsum
  refine ⟨?_, ?_, ?_, ?_⟩
  · rw [hsnd]
    exact hsum
  · rw [hsnd]
    exact hXcr
  · intro r hr
    rw [hfst] at hr
    obtain ⟨p, hp, rfl⟩ := List.mem_map.mp hr
    exact finalizeRowR1_y_none inp.Fx inp.Fy (mkCtxR1 inp pre) p hXcr hsum
  · intro hx
    rw [hsnd] at hx ⊢
    exact mkCtxR1_Ycr_nonzero inp pre hx

/-- C8 witness: the amended description instantiated on the concrete all-EW
layout. -/
theorem c8_witness :
    ((computeR1 r1DemoInp ewOnlyWalls).toOption.map (fun res =>
      decide (res.snd.sumRiy = 0 ∧ res.snd.Xcr = none))) = some true := by
  cases hres : computeR1 r1DemoInp ewOnlyWalls with
  | error e =>
    have hOk : exIsOk (computeR1 r1DemoInp ewOnlyWalls) = true := by
      with_unfolding_all decide
    rw [hres] at hOk
    exact absurd hOk (by simp [exIsOk])
  | ok res =>
    have h := c8_amended r1DemoInp ewOnlyWalls res hres (by with_unfolding_all decide)
    simp only [Except.toOption, Option.map_some', Option.some.injEq]
    exact decide_eq_true ⟨h.1, h.2.1⟩

theorem buildRowR1_error_of_bad_geom (Xoff Yoff : ℚ) (w : WallIn)
    (h : w.len = 0 ∨ DiQ w = 0) : ∃ e, buildRowR1 Xoff Yoff w = .error e := by
  by_cases hl : w.len = 0
  · exact ⟨.zeroDiv, by simp [buildRowR1, hl]⟩
  · rcases h with h | h
    · exact absurd h hl
    · unfold DiQ at h
      have horient : ∃ e0, wallOrientationFactors (strTrim w.name)
          (4 * (w.ht / w.len) ^ 3 + 3 * (w.ht / w.len)) = .error e0 := by
        unfold wallOrientationFactors
        by_cases h1 : nameHasEW (strTrim w.name) = true
        · rw [if_pos h1, if_pos h]
          exact ⟨_, rfl⟩
        · rw [if_neg h1]
          by_cases h2 : nameHasNS (strTrim w.name) = true
          · rw [if_pos h2, if_pos h]
            exact ⟨_, rfl⟩
          · rw [if_neg h2]
            exact ⟨_, rfl⟩
      obtain ⟨e0, he0⟩ := horient
      refine ⟨e0, ?_⟩
      simp only [buildRowR1]
      rw [if_neg hl, he0]

theorem buildRowR1_ok_echo {Xoff Yoff : ℚ} {w : WallIn} {p : RowPre}
    (h : buildRowR1 Xoff Yoff w = .ok p) :
    p.name = strTrim w.name ∧ p.len = w.len ∧ p.ht = w.ht := by
  simp only [buildRowR1] at h
  by_cases hl : w.len = 0
  · rw [if_pos hl] at h
    exact absurd h (by simp)
  · rw [if_neg hl] at h
    cases ho : wallOrientationFactors (strTrim w.name)
        (4 * (w.ht / w.len) ^ 3 + 3 * (w.ht / w.len)) with
    | error e => rw [ho] at h; exact absurd h (by simp)
    | ok rf =>
      rw [ho] at h
      simp only [Except.ok.injEq] at h
      rw [← h]
      exact ⟨rfl, rfl, rfl⟩

/-- C9 counterexample: a wall of negative length is not rejected — the R1
solver returns a full result table whose first row echoes the offending wall
`EW1` with length `-1`, so non-positive geometry does not make the solve fail. -/
theorem c9_counterexample :
    (computeR1 r1DemoInp negLenWalls).toOption.map (fun res =>
      res.fst.map (fun r => (r.name, r.len))) =
    some [("EW1", -1), ("EW2", 1), ("NS1", 1), ("NS2", 1)] := by
  with_unfolding_all decide

/-- C9 (amended): the R1 solver only fails on the geometry that actually
divides by zero — a wall of zero length, or one whose rigidity modulus `Di`
evaluates to zero (for instance zero height) — raising a bare
`ZeroDivisionError` that does not identify the wall; every successful solve
echoes every input wall (names trimmed, lengths and heights unchecked) into
the result table, so negative lengths and heights pass through silently. -/
theorem c9_amended :
    (∀ inp walls, (∃ w ∈ walls, w.len = 0 ∨ DiQ w = 0) →
      ∃ e, computeR1 inp walls = .error e) ∧
    (∀ inp walls res, computeR1 inp walls = Except.ok res →
      res.fst.map (fun r => (r.name, r.len, r.ht)) =
        walls.map (fun w => (strTrim w.name, w.len, w.ht))) := by
  constructor
  · intro inp walls hbad
    obtain ⟨w, hw, hgeom⟩ := hbad
    obtain ⟨e2, he2⟩ := exMapM_error_of_mem (buildRowR1 inp.Xoff inp.Yoff) hw
      (buildRowR1_error_of_bad_geom inp.Xoff inp.Yoff w hgeom)
    refine ⟨e2, ?_⟩
    unfold computeR1
    rw [he2]
  · intro inp walls res hok
    obtain ⟨pre, hpre, hne, hfst, hsnd⟩ := computeR1_ok_elim hok
    rw [hfst, List.map_map]
    apply exMapM_ok_map_eq _ _ _ hpre
    intro a b hab
    obtain ⟨h1, h2, h3⟩ := buildRowR1_ok_echo hab
    simp only [Function.comp]
    show (b.name, b.len, b.ht) = (strTrim a.name, a.len, a.ht)
    rw [h1, h2, h3]

/-- C9 witness: the zero-length wall layout makes the R1 solve raise. -/
theorem c9_witness : ∃ e, computeR1 r1DemoInp zeroLenWalls = .error e := by
  apply c9_amended.1 r1DemoInp zeroLenWalls
  exact ⟨{ name := "EW1", len := 0, ht := 1, wk := 0, x := 0, y := 0 },
    by simp [zeroLenWalls], Or.inl rfl⟩

theorem mkCtxR1_sumRix (inp : InputsR1) (pre : List RowPre) :
    (mkCtxR1 inp pre).sumRix = (pre.map (fun p => p.Rix)).sum := rfl

theorem mkCtxR1_sumRiy (inp : InputsR1) (pre : List RowPre) :
    (mkCtxR1 inp pre).sumRiy = (pre.map (fun p => p.Riy)).sum := rfl

theorem mkSummaryR1_sumRix (inp : InputsR1) (c : CtxR1) :
    (mkSummaryR1 inp c).sumRix = c.sumRix := rfl

theorem mkSummaryR1_sumRiy (inp : InputsR1) (c : CtxR1) :
    (mkSummaryR1 inp c).sumRiy = c.sumRiy := rfl

theorem finalizeRowR1_directX (Fx Fy : ℚ) (c : CtxR1) (p : RowPre) :
    (finalizeRowR1 Fx Fy c p).directX =
      Fx * (if c.sumRix = 0 then 0 else p.Rix / c.sumRix) := rfl

theorem finalizeRowR1_directY (Fx Fy : ℚ) (c : CtxR1) (p : RowPre) :
    (finalizeRowR1 Fx Fy c p).directY =
      Fy * (if c.sumRiy = 0 then 0 else p.Riy / c.sumRiy) := rfl

theorem computeSL_fst (inp : InputsSL) (walls : List WallSL) :
    (computeSL inp walls).fst = (walls.map (buildRowSL inp)).map
      (finalizeRowSL inp (mkGlobalsSL inp (walls.map (buildRowSL inp)))) := rfl

theorem computeSL_snd (inp : InputsSL) (walls : List WallSL) :
    (computeSL inp walls).snd = mkGlobalsSL inp (walls.map (buildRowSL inp)) := rfl

theorem mkGlobalsSL_sumRiEW (inp : InputsSL) (pre : List PreSL) :
    (mkGlobalsSL inp pre).sumRiEW = skipnaSum (pre.map (fun p => p.riEW)) := rfl

theorem mkGlobalsSL_sumRiNS (inp : InputsSL) (pre : List PreSL) :
    (mkGlobalsSL inp pre).sumRiNS = skipnaSum (pre.map (fun p => p.riNS)) := rfl

theorem finalizeRowSL_directX (inp : InputsSL) (g : GlobalsSL) (p : PreSL) :
    (finalizeRowSL inp g p).directX = fmul (some inp.Vx)
      (if g.sumRiEW = 0 then none else fdiv p.riEW (some g.sumRiEW)) := rfl

theorem finalizeRowSL_directY (inp : InputsSL) (g : GlobalsSL) (p : PreSL) :
    (finalizeRowSL inp g p).directY = fmul (some inp.Vy)
      (if g.sumRiNS = 0 then none else fdiv p.riNS (some g.sumRiNS)) := rfl

theorem skipnaSum_congr_some {α : Type} (l : List α) (f : α → FNum) (g : α → ℚ)
    (h : ∀ a ∈ l, f a = some (g a)) : skipnaSum (l.map f) = (l.map g).sum := by
  induction l with
  | nil => rfl
  | cons x xs ih =>
    simp only [List.map_cons, List.sum_cons]
    rw [h x (List.mem_cons_self x xs)]
    show g x + skipnaSum (xs.map f) = g x + (xs.map g).sum
    rw [ih (fun a ha => h a (List.mem_cons_of_mem x ha))]

theorem fsum_congr_some {α : Type} (l : List α) (f : α → FNum) (g : α → ℚ)
    (h : ∀ a ∈ l, f a = some (g a)) : fsum (l.map f) = some ((l.map g).sum) := by
  induction l with
  | nil => rfl
  | cons x xs ih =>
    simp only [List.map_cons, List.sum_cons]
    show fadd (f x) (fsum (xs.map f)) = some (g x + (xs.map g).sum)
    rw [h x (List.mem_cons_self x xs),
      ih (fun a ha => h a (List.mem_cons_of_mem x ha))]
    rfl

theorem buildRowSL_ri_wf (inp : InputsSL) (w : WallSL) (hL : w.L ≠ 0)
    (hD : deltaQSL w ≠ 0) :
    (buildRowSL inp w).riEW =
      some (if startsEW (strTrim w.marker) = true then 1 / deltaQSL w else 0) ∧
    (buildRowSL inp w).riNS =
      some (if startsNS (strTrim w.marker) = true then 1 / deltaQSL w else 0) := by
  have hhl : fdiv (some w.H) (some w.L) = some (w.H / w.L) := by
    simp [fdiv, hL]
  have hdelta : fadd (fmul (some 4)
      (fmul (fmul (fdiv (some w.H) (some w.L)) (fdiv (some w.H) (some w.L)))
        (fdiv (some w.H) (some w.L))))
      (fmul (some 3) (fdiv (some w.H) (some w.L))) = some (deltaQSL w) := by
    rw [hhl]
    simp only [fmul, fadd, Option.some.injEq, deltaQSL]
    ring
  constructor
  · show (if startsEW (strTrim w.marker) = true then
        fdiv (some 1) (fadd (fmul (some 4)
          (fmul (fmul (fdiv (some w.H) (some w.L)) (fdiv (some w.H) (some w.L)))
            (fdiv (some w.H) (some w.L))))
          (fmul (some 3) (fdiv (some w.H) (some w.L)))) else some 0) = _
    by_cases hs : startsEW (strTrim w.marker) = true
    · rw [if_pos hs, if_pos hs, hdelta]
      simp [fdiv, hD]
    · rw [if_neg hs, if_neg hs]
  · show (if startsNS (strTrim w.marker) = true then
        fdiv (some 1) (fadd (fmul (some 4)
          (fmul (fmul (fdiv (some w.H) (some w.L)) (fdiv (some w.H) (some w.L)))
            (fdiv (some w.H) (some w.L))))
          (fmul (some 3) (fdiv (some w.H) (some w.L)))) else some 0) = _
    by_cases hs : startsNS (strTrim w.marker) = true
    · rw [if_pos hs, if_pos hs, hdelta]
      simp [fdiv, hD]
    · rw [if_neg hs, if_neg hs]

/-- C6: direct-shear conservation.  In the R1 solver, whenever the rigidity
sum of an axis is nonzero the direct shears on that axis sum exactly to the
applied force, because the ratios `Rix/ΣRix` (resp. `Riy/ΣRiy`) partition
unity; the streamlit variant satisfies the same identity on well-formed
geometry (nonzero length and rigidity modulus for every wall). -/
theorem c6_theorem :
    (∀ inp walls res, computeR1 inp walls = Except.ok res →
      (res.snd.sumRix ≠ 0 → (res.fst.map (fun r => r.directX)).sum = inp.Fx) ∧
      (res.snd.sumRiy ≠ 0 → (res.fst.map (fun r => r.directY)).sum = inp.Fy)) ∧
    (∀ inp walls, (∀ w ∈ walls, w.L ≠ 0 ∧ deltaQSL w ≠ 0) →
      ((computeSL inp walls).snd.sumRiEW ≠ 0 →
        fsum ((computeSL inp walls).fst.map (fun r => r.directX)) = some inp.Vx) ∧
      ((computeSL inp walls).snd.sumRiNS ≠ 0 →
        fsum ((computeSL inp walls).fst.map (fun r => r.directY)) = some inp.Vy)) := by
  constructor
  · intro inp walls res hok
    obtain ⟨pre, hpre, hne, hfst, hsnd⟩ := computeR1_ok_elim hok
    constructor
    · intro hS
      rw [hsnd, mkSummaryR1_sumRix, mkCtxR1_sumRix] at hS
      rw [hfst, List.map_map]
      have hcomp : ((fun r => r.directX) ∘ finalizeRowR1 inp.Fx inp.Fy (mkCtxR1 inp pre)) =
          (fun p => inp.Fx * (p.Rix / (pre.map (fun q => q.Rix)).sum)) := by
        funext p
        simp only [Function.comp, finalizeRowR1_directX, mkCtxR1_sumRix]
        rw [if_neg hS]
      rw [hcomp, List.sum_map_mul_left]
      have hdiv : (pre.map (fun p => p.Rix / (pre.map (fun q => q.Rix)).sum)).sum =
          (pre.map (fun q => q.Rix)).sum / (pre.map (fun q => q.Rix)).sum := by
        simp only [div_eq_mul_inv]
        rw [List.sum_map_mul_right]
      rw [hdiv, div_self hS, mul_one]
    · intro hS
      rw [hsnd, mkSummaryR1_sumRiy, mkCtxR1_sumRiy] at hS
      rw [hfst, List.map_map]
      have hcomp : ((fun r => r.directY) ∘ finalizeRowR1 inp.Fx inp.Fy (mkCtxR1 inp pre)) =
          (fun p => inp.Fy * (p.Riy / (pre.map (fun q => q.Riy)).sum)) := by
        funext p
        simp only [Function.comp, finalizeRowR1_directY, mkCtxR1_sumRiy]
        rw [if_neg hS]
      rw [hcomp, List.sum_map_mul_left]
      have hdiv : (pre.map (fun p => p.Riy / (pre.map (fun q => q.Riy)).sum)).sum =
          (pre.map (fun q => q.Riy)).sum / (pre.map (fun q => q.Riy)).sum := by
        simp only [div_eq_mul_inv]
        rw [List.sum_map_mul_right]
      rw [hdiv, div_self hS, mul_one]
  · intro inp walls hwf
    have hriEW : ∀ w ∈ walls, (buildRowSL inp w).riEW =
        some (if startsEW (strTrim w.marker) = true then 1 / deltaQSL w else 0) :=
      fun w hw => (buildRowSL_ri_wf inp w (hwf w hw).1 (hwf w hw).2).1
    have hriNS : ∀ w ∈ walls, (buildRowSL inp w).riNS =
        some (if startsNS (strTrim w.marker) = true then 1 / deltaQSL w else 0) :=
      fun w hw => (buildRowSL_ri_wf inp w (hwf w hw).1 (hwf w hw).2).2
    have hsumEW : (computeSL inp walls).snd.sumRiEW =
        (walls.map (fun w =>
          if startsEW (strTrim w.marker) = true then 1 / deltaQSL w else 0)).sum := by
      rw [computeSL_snd, mkGlobalsSL_sumRiEW, List.map_map]
      exact skipnaSum_congr_some walls _ _ hriEW
    have hsumNS : (computeSL inp walls).snd.sumRiNS =
        (walls.map (fun w =>
          if startsNS (strTrim w.marker) = true then 1 / deltaQSL w else 0)).sum := by
      rw [computeSL_snd, mkGlobalsSL_sumRiNS, List.map_map]
      exact skipnaSum_congr_some walls _ _ hriNS
    constructor
    · intro hS
      have hS2 : (mkGlobalsSL inp (walls.map (buildRowSL inp))).sumRiEW ≠ 0 := hS
      rw [computeSL_fst, List.map_map, List.map_map]
      have hrow : ∀ w ∈ walls,
          (((fun r => r.directX) ∘ finalizeRowSL inp (mkGlobalsSL inp (walls.map (buildRowSL inp)))) ∘ buildRowSL inp) w =
          some (inp.Vx * ((if startsEW (strTrim w.marker) = true then 1 / deltaQSL w else 0) /
            (mkGlobalsSL inp (walls.map (buildRowSL inp))).sumRiEW)) := by
        intro w hw
        simp only [Function.comp, finalizeRowSL_directX]
        rw [if_neg hS2, hriEW w hw]
        simp only [fdiv, fmul]
        rw [if_neg hS2]
      rw [fsum_congr_some walls _ _ hrow, List.sum_map_mul_left]
      have hdiv : (walls.map (fun w =>
          (if startsEW (strTrim w.marker) = true then 1 / deltaQSL w else 0) /
            (mkGlobalsSL inp (walls.map (buildRowSL inp))).sumRiEW)).sum =
          (walls.map (fun w =>
            if startsEW (strTrim w.marker) = true then 1 / deltaQSL w else 0)).sum /
            (mkGlobalsSL inp (walls.map (buildRowSL inp))).sumRiEW := by
        simp only [div_eq_mul_inv]
        rw [List.sum_map_mul_right]
      rw [hdiv, ← hsumEW]
      rw [show (computeSL inp walls).snd.sumRiEW =
        (mkGlobalsSL inp (walls.map (buildRowSL inp))).sumRiEW from rfl]
      rw [div_self hS2, mul_one]
    · intro hS
      have hS2 : (mkGlobalsSL inp (walls.map (buildRowSL inp))).sumRiNS ≠ 0 := hS
      rw [computeSL_fst, List.map_map, List.map_map]
      have hrow : ∀ w ∈ walls,
          (((fun r => r.directY) ∘ finalizeRowSL inp (mkGlobalsSL inp (walls.map (buildRowSL inp)))) ∘ buildRowSL inp) w =
          some (inp.Vy * ((if startsNS (strTrim w.marker) = true then 1 / deltaQSL w else 0) /
            (mkGlobalsSL inp (walls.map (buildRowSL inp))).sumRiNS)) := by
        intro w hw
        simp only [Function.comp, finalizeRowSL_directY]
        rw [if_neg hS2, hriNS w hw]
        simp only [fdiv, fmul]
        rw [if_neg hS2]
      rw [fsum_congr_some walls _ _ hrow, List.sum_map_mul_left]
      have hdiv : (walls.map (fun w =>
          (if startsNS (strTrim w.marker) = true then 1 / deltaQSL w else 0) /
            (mkGlobalsSL inp (walls.map (buildRowSL inp))).sumRiNS)).sum =
          (walls.map (fun w =>
            if startsNS (strTrim w.marker) = true then 1 / deltaQSL w else 0)).sum /
            (mkGlobalsSL inp (walls.map (buildRowSL inp))).sumRiNS := by
        simp only [div_eq_mul_inv]
        rw [List.sum_map_mul_right]
      rw [hdiv, ← hsumNS]
      rw [show (computeSL inp walls).snd.sumRiNS =
        (mkGlobalsSL inp (walls.map (buildRowSL inp))).sumRiNS from rfl]
      rw [div_self hS2, mul_one]

/-- C6 witness: both conservation identities evaluated on the demo layout
(`ΣDirect_x = Fx = 7` and `ΣDirect_y = Fy = 7`). -/
theorem c6_witness :
    ((computeR1 r1DemoInp r1DemoWalls).toOption.map (fun res =>
      decide ((res.fst.map (fun r => r.directX)).sum = r1DemoInp.Fx ∧
        (res.fst.map (fun r => r.directY)).sum = r1DemoInp.Fy))) = some true := by
  cases hres : computeR1 r1DemoInp r1DemoWalls with
  | error e =>
    have hOk : exIsOk (computeR1 r1DemoInp r1DemoWalls) = true := by
      with_unfolding_all decide
    rw [hres] at hOk
    exact absurd hOk (by simp [exIsOk])
  | ok res =>
    have hsums : ((computeR1 r1DemoInp r1DemoWalls).toOption.map (fun res =>
        decide (res.snd.sumRix ≠ 0 ∧ res.snd.sumRiy ≠ 0))) = some true := by
      with_unfolding_all decide
    rw [hres] at hsums
    simp only [Except.toOption, Option.map_some', Option.some.injEq,
      decide_eq_true_eq] at hsums
    have h := c6_theorem.1 r1DemoInp r1DemoWalls res hres
    simp only [Except.toOption, Option.map_some', Option.some.injEq]
    exact decide_eq_true ⟨h.1 hsums.1, h.2 hsums.2⟩

theorem shiftInputsR1_Fx (a b : ℚ) (inp : InputsR1) :
    (shiftInputsR1 a b inp).Fx = inp.Fx := rfl

theorem shiftInputsR1_Fy (a b : ℚ) (inp : InputsR1) :
    (shiftInputsR1 a b inp).Fy = inp.Fy := rfl

theorem buildRowR1_shift (a b Xoff Yoff : ℚ) (w : WallIn) :
    buildRowR1 (Xoff + a) (Yoff + b) (shiftWall a b w) =
      (buildRowR1 Xoff Yoff w).map (shiftPre a b) := by
  simp only [buildRowR1, shiftWall]
  by_cases hl : w.len = 0
  · rw [if_pos hl, if_pos hl]
    rfl
  · rw [if_neg hl, if_neg hl]
    cases ho : wallOrientationFactors (strTrim w.name)
        (4 * (w.ht / w.len) ^ 3 + 3 * (w.ht / w.len)) with
    | error e => rfl
    | ok rf =>
      simp only [Except.map, shiftPre, Except.ok.injEq, RowPre.mk.injEq, true_and,
        and_true]
      exact ⟨by ring, by ring⟩

theorem mkCtxR1_shift (a b : ℚ) (inp : InputsR1) (pre : List RowPre) :
    mkCtxR1 (shiftInputsR1 a b inp) (pre.map (shiftPre a b)) = mkCtxR1 inp pre := by
  have hXcm : inp.XcmMan + a - (inp.Xoff + a) = inp.XcmMan - inp.Xoff := by ring
  have hYcm : inp.YcmMan + b - (inp.Yoff + b) = inp.YcmMan - inp.Yoff := by ring
  simp only [mkCtxR1, shiftInputsR1, shiftPre, List.map_map, Function.comp_def]
  rw [hXcm, hYcm]

theorem eraseRawXY_finalize_shift (a b Fx Fy : ℚ) (c : CtxR1) (p : RowPre) :
    eraseRawXY (finalizeRowR1 Fx Fy c (shiftPre a b p)) =
      eraseRawXY (finalizeRowR1 Fx Fy c p) := rfl

theorem eraseOffsets_summary_shift (a b : ℚ) (inp : InputsR1) (c : CtxR1) :
    eraseOffsets (mkSummaryR1 (shiftInputsR1 a b inp) c) =
      eraseOffsets (mkSummaryR1 inp c) := rfl

theorem listMapCongr {α β : Type} (f g : α → β) (l : List α)
    (h : ∀ x, f x = g x) : l.map f = l.map g := by
  induction l with
  | nil => rfl
  | cons x xs ih => simp [h x, ih]

/-- C5 counterexample: translating the layout and growing the offsets by the
same `(1, 1)` leaves the working coordinates untouched, so the reported `Xcr`
of the two runs is identical (both runs report `Xcr = 1` here) — it does not
differ by the shift as claimed. -/
theorem c5_counterexample :
    (computeR1 (shiftInputsR1 1 1 r1DemoInp) (r1DemoWalls.map (shiftWall 1 1))).toOption.map
      (fun res => res.snd.Xcr) ≠
    (computeR1 r1DemoInp r1DemoWalls).toOption.map
      (fun res => fadd res.snd.Xcr (some 1)) := by
  with_unfolding_all decide

/-- C5 (amended): translating every external coordinate (walls and mass
center) by `(a, b)` while growing the paper offsets by the same `(a, b)`
reproduces the original run exactly — identical per-wall `Vx`/`Vy` totals, and
identical (not shifted) `Xcr`, `Ycr`, working coordinates and every other
derived quantity; only the echoed raw coordinates and offsets change. -/
theorem c5_amended (inp : InputsR1) (walls : List WallIn) (a b : ℚ) :
    (computeR1 (shiftInputsR1 a b inp) (walls.map (shiftWall a b))).map
      (fun res => (res.fst.map eraseRawXY, eraseOffsets res.snd)) =
    (computeR1 inp walls).map
      (fun res => (res.fst.map eraseRawXY, eraseOffsets res.snd)) := by
  have hmapM : exMapM (buildRowR1 (shiftInputsR1 a b inp).Xoff (shiftInputsR1 a b inp).Yoff)
      (walls.map (shiftWall a b)) =
      (exMapM (buildRowR1 inp.Xoff inp.Yoff) walls).map (List.map (shiftPre a b)) := by
    rw [exMapM_comp]
    rw [show (fun w => buildRowR1 (shiftInputsR1 a b inp).Xoff
        (shiftInputsR1 a b inp).Yoff (shiftWall a b w)) =
        (fun w => (buildRowR1 inp.Xoff inp.Yoff w).map (shiftPre a b)) from
      funext (fun w => buildRowR1_shift a b inp.Xoff inp.Yoff w)]
    rw [exMapM_map]
  cases hpre : exMapM (buildRowR1 inp.Xoff inp.Yoff) walls with
  | error e =>
    have h1 : computeR1 inp walls = .error e := by
      unfold computeR1
      rw [hpre]
    have h2 : computeR1 (shiftInputsR1 a b inp) (walls.map (shiftWall a b)) = .error e := by
      unfold computeR1
      rw [hmapM, hpre]
      rfl
    rw [h1, h2]
  | ok pre =>
    cases pre with
    | nil =>
      have h1 : computeR1 inp walls = .error .emptyWalls := by
        unfold computeR1
        rw [hpre]
      have h2 : computeR1 (shiftInputsR1 a b inp) (walls.map (shiftWall a b)) =
          .error .emptyWalls := by
        unfold computeR1
        rw [hmapM, hpre]
        rfl
      rw [h1, h2]
    | cons p ps =>
      have h1 : computeR1 inp walls =
          .ok ((p :: ps).map (finalizeRowR1 inp.Fx inp.Fy (mkCtxR1 inp (p :: ps))),
            mkSummaryR1 inp (mkCtxR1 inp (p :: ps))) := by
        unfold computeR1
        rw [hpre]
      have h2 : computeR1 (shiftInputsR1 a b inp) (walls.map (shiftWall a b)) =
          .ok (((p :: ps).map (shiftPre a b)).map
              (finalizeRowR1 (shiftInputsR1 a b inp).Fx (shiftInputsR1 a b inp).Fy
                (mkCtxR1 (shiftInputsR1 a b inp) ((p :: ps).map (shiftPre a b)))),
            mkSummaryR1 (shiftInputsR1 a b inp)
              (mkCtxR1 (shiftInputsR1 a b inp) ((p :: ps).map (shiftPre a b)))) := by
        unfold computeR1
        rw [hmapM, hpre]
        rfl
      rw [h1, h2]
      simp only [Except.map, Except.ok.injEq, Prod.mk.injEq]
      rw [mkCtxR1_shift, shiftInputsR1_Fx, shiftInputsR1_Fy]
      constructor
      · simp only [List.map_map]
        exact listMapCongr _ _ _
          (fun q => eraseRawXY_finalize_shift a b inp.Fx inp.Fy (mkCtxR1 inp (p :: ps)) q)
      · rw [eraseOffsets_summary_shift]

/-- C5 witness: the amended invariance instantiated at the demo layout and
shift `(1, 1)`. -/
theorem c5_witness :
    (computeR1 (shiftInputsR1 1 1 r1DemoInp) (r1DemoWalls.map (shiftWall 1 1))).map
      (fun res => (res.fst.map eraseRawXY, eraseOffsets res.snd)) =
    (computeR1 r1DemoInp r1DemoWalls).map
      (fun res => (res.fst.map eraseRawXY, eraseOffsets res.snd)) :=
  c5_amended r1DemoInp r1DemoWalls 1 1

theorem setW_Xoff (i : InputsR1) (q : ℚ) : (setW i q).Xoff = i.Xoff := rfl

theorem setW_Yoff (i : InputsR1) (q : ℚ) : (setW i q).Yoff = i.Yoff := rfl

theorem setW_Fx (i : InputsR1) (q : ℚ) : (setW i q).Fx = i.Fx := rfl

theorem setW_Fy (i : InputsR1) (q : ℚ) : (setW i q).Fy = i.Fy := rfl

theorem mkCtxR1_setW (i : InputsR1) (q : ℚ) (pre : List RowPre) :
    mkCtxR1 (setW i q) pre = mkCtxR1 i pre := rfl

theorem mkSummaryR1_setW (i : InputsR1) (q : ℚ) (c : CtxR1) :
    mkSummaryR1 (setW i q) c = mkSummaryR1 i c := rfl

theorem mkCtxV2_setW (i : InputsR1) (q : ℚ) (pre : List RowPre) :
    mkCtxV2 (setW i q) pre = mkCtxV2 i pre := rfl

theorem mkCtxR1_erase (i : InputsR1) (pre : List RowPre) :
    mkCtxR1 i (pre.map eraseWkPre) = mkCtxR1 i pre := by
  simp only [mkCtxR1, eraseWkPre, List.map_map, Function.comp_def]

theorem mkCtxV2_erase (i : InputsR1) (pre : List RowPre) :
    mkCtxV2 i (pre.map eraseWkPre) = mkCtxV2 i pre := by
  simp only [mkCtxV2, eraseWkPre, List.map_map, Function.comp_def]

theorem buildRowR1_erase_wk (Xoff Yoff : ℚ) (w : WallIn) :
    (buildRowR1 Xoff Yoff w).map eraseWkPre =
      (buildRowR1 Xoff Yoff (eraseWkWall w)).map eraseWkPre := by
  simp only [buildRowR1, eraseWkWall]
  by_cases hl : w.len = 0
  · rw [if_pos hl, if_pos hl]
  · rw [if_neg hl, if_neg hl]
    cases ho : wallOrientationFactors (strTrim w.name)
        (4 * (w.ht / w.len) ^ 3 + 3 * (w.ht / w.len)) with
    | error e => rfl
    | ok rf => rfl

theorem exMapM_erase_eq {α β : Type} {ε : Type} (f : α → Except ε β) (e : α → α)
    (E : β → β) (hf : ∀ x, (f x).map E = (f (e x)).map E)
    {l1 l2 : List α} (h : l1.map e = l2.map e) :
    (exMapM f l1).map (List.map E) = (exMapM f l2).map (List.map E) := by
  rw [exMapM_map, exMapM_map]
  have key : ∀ l : List α, exMapM (fun x => (f x).map E) l =
      exMapM (fun y => (f y).map E) (l.map e) := by
    intro l
    rw [exMapM_comp]
    show exMapM (fun x => (f x).map E) l = exMapM (fun x => (f (e x)).map E) l
    rw [show (fun x => (f x).map E) = (fun x => (f (e x)).map E) from funext hf]
  rw [key l1, key l2, h]

theorem eraseWkRow_finalize (Fx Fy : ℚ) (c : CtxR1) (p : RowPre) :
    eraseWkRow (finalizeRowR1 Fx Fy c (eraseWkPre p)) =
      eraseWkRow (finalizeRowR1 Fx Fy c p) := rfl

theorem eraseWkRowV2_finalize (Fx Fy : ℚ) (c : CtxV2) (p : RowPre) :
    eraseWkRowV2 (finalizeRowV2 Fx Fy c (eraseWkPre p)) =
      eraseWkRowV2 (finalizeRowV2 Fx Fy c p) := rfl

theorem map_erase_rows_eq (Fx Fy : ℚ) (c : CtxR1) {pre1 pre2 : List RowPre}
    (h : pre1.map eraseWkPre = pre2.map eraseWkPre) :
    (pre1.map (finalizeRowR1 Fx Fy c)).map eraseWkRow =
      (pre2.map (finalizeRowR1 Fx Fy c)).map eraseWkRow := by
  have step : ∀ pre : List RowPre, (pre.map (finalizeRowR1 Fx Fy c)).map eraseWkRow =
      ((pre.map eraseWkPre).map (finalizeRowR1 Fx Fy c)).map eraseWkRow := by
    intro pre
    simp only [List.map_map]
    exact listMapCongr _ _ _ (fun p => (eraseWkRow_finalize Fx Fy c p).symm)
  rw [step pre1, step pre2, h]

theorem map_erase_rows_eq_v2 (Fx Fy : ℚ) (c : CtxV2) {pre1 pre2 : List RowPre}
    (h : pre1.map eraseWkPre = pre2.map eraseWkPre) :
    (pre1.map (finalizeRowV2 Fx Fy c)).map eraseWkRowV2 =
      (pre2.map (finalizeRowV2 Fx Fy c)).map eraseWkRowV2 := by
  have step : ∀ pre : List RowPre, (pre.map (finalizeRowV2 Fx Fy c)).map eraseWkRowV2 =
      ((pre.map eraseWkPre).map (finalizeRowV2 Fx Fy c)).map eraseWkRowV2 := by
    intro pre
    simp only [List.map_map]
    exact listMapCongr _ _ _ (fun p => (eraseWkRowV2_finalize Fx Fy c p).symm)
  rw [step pre1, step pre2, h]

theorem insertBy_map_comm {α : Type} (le : α → α → Bool) (E : α → α)
    (hle : ∀ a b, le (E a) (E b) = le a b) (x : α) (l : List α) :
    (insertBy le x l).map E = insertBy le (E x) (l.map E) := by
  induction l with
  | nil => rfl
  | cons y ys ih =>
    simp only [insertBy, List.map_cons]
    by_cases hc : le x y = true
    · rw [if_pos hc, if_pos (by rw [hle]; exact hc)]
      simp only [List.map_cons]
    · rw [if_neg hc, if_neg (by rw [hle]; exact hc)]
      simp only [List.map_cons, ih]

theorem insertionSort_map_comm {α : Type} (le : α → α → Bool) (E : α → α)
    (hle : ∀ a b, le (E a) (E b) = le a b) (l : List α) :
    (insertionSort le l).map E = insertionSort le (l.map E) := by
  induction l with
  | nil => rfl
  | cons x xs ih =>
    simp only [insertionSort, List.map_cons]
    rw [insertBy_map_comm le E hle, ih]

theorem computeR1_wk_free (i : InputsR1) (q : ℚ) (walls1 walls2 : List WallIn)
    (h : walls1.map eraseWkWall = walls2.map eraseWkWall) :
    (computeR1 (setW i q) walls1).map (fun res => (res.fst.map eraseWkRow, res.snd)) =
    (computeR1 i walls2).map (fun res => (res.fst.map eraseWkRow, res.snd)) := by
  have hrel := exMapM_erase_eq (buildRowR1 i.Xoff i.Yoff) eraseWkWall eraseWkPre
    (buildRowR1_erase_wk i.Xoff i.Yoff) h
  cases hA : exMapM (buildRowR1 i.Xoff i.Yoff) walls1 with
  | error e1 =>
    cases hB : exMapM (buildRowR1 i.Xoff i.Yoff) walls2 with
    | error e2 =>
      rw [hA, hB] at hrel
      simp only [Except.map, Except.error.injEq] at hrel
      subst hrel
      have h1 : computeR1 (setW i q) walls1 = .error e1 := by
        unfold computeR1
        rw [setW_Xoff, setW_Yoff, hA]
      have h2 : computeR1 i walls2 = .error e1 := by
        unfold computeR1
        rw [hB]
      rw [h1, h2]
    | ok pre2 =>
      rw [hA, hB] at hrel
      simp only [Except.map] at hrel
      exact absurd hrel (by simp)
  | ok pre1 =>
    cases hB : exMapM (buildRowR1 i.Xoff i.Yoff) walls2 with
    | error e2 =>
      rw [hA, hB] at hrel
      simp only [Except.map] at hrel
      exact absurd hrel (by simp)
    | ok pre2 =>
      rw [hA, hB] at hrel
      simp only [Except.map, Except.ok.injEq] at hrel
      cases pre1 with
      | nil =>
        cases pre2 with
        | nil =>
          have h1 : computeR1 (setW i q) walls1 = .error .emptyWalls := by
            unfold computeR1
            rw [setW_Xoff, setW_Yoff, hA]
          have h2 : computeR1 i walls2 = .error .emptyWalls := by
            unfold computeR1
            rw [hB]
          rw [h1, h2]
        | cons p2 ps2 => exact absurd hrel (by simp)
      | cons p1 ps1 =>
        cases pre2 with
        | nil => exact absurd hrel (by simp)
        | cons p2 ps2 =>
          have hctx : mkCtxR1 i (p1 :: ps1) = mkCtxR1 i (p2 :: ps2) := by
            rw [← mkCtxR1_erase i (p1 :: ps1), ← mkCtxR1_erase i (p2 :: ps2), hrel]
          have h1 : computeR1 (setW i q) walls1 =
              .ok ((p1 :: ps1).map (finalizeRowR1 i.Fx i.Fy (mkCtxR1 i (p1 :: ps1))),
                mkSummaryR1 i (mkCtxR1 i (p1 :: ps1))) := by
            unfold computeR1
            rw [setW_Xoff, setW_Yoff, hA]
            rfl
          have h2 : computeR1 i walls2 =
              .ok ((p2 :: ps2).map (finalizeRowR1 i.Fx i.Fy (mkCtxR1 i (p2 :: ps2))),
                mkSummaryR1 i (mkCtxR1 i (p2 :: ps2))) := by
            unfold computeR1
            rw [hB]
          rw [h1, h2]
          simp only [Except.map, Except.ok.injEq, Prod.mk.injEq]
          constructor
          · rw [hctx]
            exact map_erase_rows_eq i.Fx i.Fy (mkCtxR1 i (p2 :: ps2)) hrel
          · rw [hctx]

theorem computeV2_empty (inp : InputsR1) : computeV2 inp [] = .error .emptyWalls := rfl

theorem computeV2_error_of (inp : InputsR1) {walls : List WallIn} {e : SolveErr}
    (hne : walls ≠ []) (hpre : exMapM (buildRowR1 inp.Xoff inp.Yoff) walls = .error e) :
    computeV2 inp walls = .error e := by
  have hie : walls.isEmpty = false := by
    cases walls with
    | nil => exact absurd rfl hne
    | cons a l => rfl
  unfold computeV2
  rw [hie]
  simp only [Bool.false_eq_true, if_false]
  rw [hpre]

theorem computeV2_eq_of (inp : InputsR1) {walls : List WallIn} {pre : List RowPre}
    (hne : walls ≠ []) (hpre : exMapM (buildRowR1 inp.Xoff inp.Yoff) walls = .ok pre) :
    computeV2 inp walls =
      (if (mkCtxV2 inp (insertionSort preLeR1 pre)).Jp = 0 then .error .zeroJp
       else .ok ((insertionSort preLeR1 pre).map
           (finalizeRowV2 inp.Fx inp.Fy (mkCtxV2 inp (insertionSort preLeR1 pre))),
         mkSummaryV2 inp (mkCtxV2 inp (insertionSort preLeR1 pre)))) := by
  have hie : walls.isEmpty = false := by
    cases walls with
    | nil => exact absurd rfl hne
    | cons a l => rfl
  unfold computeV2
  rw [hie]
  simp only [Bool.false_eq_true, if_false]
  rw [hpre]

theorem eraseWSummaryV2_setW (i : InputsR1) (q : ℚ) (c : CtxV2) :
    eraseWSummaryV2 (mkSummaryV2 (setW i q) c) = eraseWSummaryV2 (mkSummaryV2 i c) := rfl

theorem computeV2_wk_free (i : InputsR1) (q : ℚ) (walls1 walls2 : List WallIn)
    (h : walls1.map eraseWkWall = walls2.map eraseWkWall) :
    (computeV2 (setW i q) walls1).map
      (fun res => (res.fst.map eraseWkRowV2, eraseWSummaryV2 res.snd)) =
    (computeV2 i walls2).map
      (fun res => (res.fst.map eraseWkRowV2, eraseWSummaryV2 res.snd)) := by
  cases walls1 with
  | nil =>
    cases walls2 with
    | nil => rfl
    | cons w2 ws2 => exact absurd h (by simp)
  | cons w1 ws1 =>
    cases walls2 with
    | nil => exact absurd h (by simp)
    | cons w2 ws2 =>
      have hne1 : (w1 :: ws1) ≠ ([] : List WallIn) := by simp
      have hne2 : (w2 :: ws2) ≠ ([] : List WallIn) := by simp
      have hrel := exMapM_erase_eq (buildRowR1 i.Xoff i.Yoff) eraseWkWall eraseWkPre
        (buildRowR1_erase_wk i.Xoff i.Yoff) h
      cases hA : exMapM (buildRowR1 i.Xoff i.Yoff) (w1 :: ws1) with
      | error e1 =>
        cases hB : exMapM (buildRowR1 i.Xoff i.Yoff) (w2 :: ws2) with
        | error e2 =>
          rw [hA, hB] at hrel
          simp only [Except.map, Except.error.injEq] at hrel
          subst hrel
          have h1 : computeV2 (setW i q) (w1 :: ws1) = .error e1 := by
            have := computeV2_error_of (setW i q) hne1
              (by rw [setW_Xoff, setW_Yoff]; exact hA)
            exact this
          rw [h1, computeV2_error_of i hne2 hB]
        | ok pre2 =>
          rw [hA, hB] at hrel
          simp only [Except.map] at hrel
          exact absurd hrel (by simp)
      | ok pre1 =>
        cases hB : exMapM (buildRowR1 i.Xoff i.Yoff) (w2 :: ws2) with
        | error e2 =>
          rw [hA, hB] at hrel
          simp only [Except.map] at hrel
          exact absurd hrel (by simp)
        | ok pre2 =>
          rw [hA, hB] at hrel
          simp only [Except.map, Except.ok.injEq] at hrel
          have hsortE : (insertionSort preLeR1 pre1).map eraseWkPre =
              (insertionSort preLeR1 pre2).map eraseWkPre := by
            rw [insertionSort_map_comm preLeR1 eraseWkPre (fun a b => rfl),
              insertionSort_map_comm preLeR1 eraseWkPre (fun a b => rfl), hrel]
          have hctx : mkCtxV2 i (insertionSort preLeR1 pre1) =
              mkCtxV2 i (insertionSort preLeR1 pre2) := by
            rw [← mkCtxV2_erase i (insertionSort preLeR1 pre1),
              ← mkCtxV2_erase i (insertionSort preLeR1 pre2), hsortE]
          have h1 := computeV2_eq_of (setW i q) hne1
            (by rw [setW_Xoff, setW_Yoff]; exact hA)
          have h2 := computeV2_eq_of i hne2 hB
          rw [h1, h2, mkCtxV2_setW, hctx]
          by_cases hj : (mkCtxV2 i (insertionSort preLeR1 pre2)).Jp = 0
          · rw [if_pos hj, if_pos hj]
          · rw [if_neg hj, if_neg hj]
            simp only [Except.map, Except.ok.injEq, Prod.mk.injEq, setW_Fx, setW_Fy]
            constructor
            · exact map_erase_rows_eq_v2 i.Fx i.Fy
                (mkCtxV2 i (insertionSort preLeR1 pre2)) hsortE
            · rw [eraseWSummaryV2_setW]

theorem computeAppR1_wk_free (i : InputsR1) (q : ℚ) (walls1 walls2 : List WallIn)
    (h : walls1.map eraseWkWall = walls2.map eraseWkWall) :
    (computeAppR1 (setW i q) walls1).map
      (fun res => (res.fst.map eraseWkRow, res.snd)) =
    (computeAppR1 i walls2).map (fun res => (res.fst.map eraseWkRow, res.snd)) := by
  have hr1 := computeR1_wk_free i q walls1 walls2 h
  cases hA : computeR1 (setW i q) walls1 with
  | error e1 =>
    cases hB : computeR1 i walls2 with
    | error e2 =>
      rw [hA, hB] at hr1
      simp only [Except.map, Except.error.injEq] at hr1
      subst hr1
      have h1 : computeAppR1 (setW i q) walls1 = .error e1 := by
        unfold computeAppR1
        rw [hA]
      have h2 : computeAppR1 i walls2 = .error e1 := by
        unfold computeAppR1
        rw [hB]
      rw [h1, h2]
    | ok res2 =>
      rw [hA, hB] at hr1
      simp only [Except.map] at hr1
      exact absurd hr1 (by simp)
  | ok res1 =>
    cases hB : computeR1 i walls2 with
    | error e2 =>
      rw [hA, hB] at hr1
      simp only [Except.map] at hr1
      exact absurd hr1 (by simp)
    | ok res2 =>
      rw [hA, hB] at hr1
      simp only [Except.map, Except.ok.injEq, Prod.mk.injEq] at hr1
      obtain ⟨hrows, hsum⟩ := hr1
      have h1 : computeAppR1 (setW i q) walls1 =
          .ok (insertionSort rowLeR1 res1.fst, res1.snd) := by
        unfold computeAppR1
        rw [hA]
      have h2 : computeAppR1 i walls2 =
          .ok (insertionSort rowLeR1 res2.fst, res2.snd) := by
        unfold computeAppR1
        rw [hB]
      rw [h1, h2]
      simp only [Except.map, Except.ok.injEq, Prod.mk.injEq]
      constructor
      · rw [insertionSort_map_comm rowLeR1 eraseWkRow (fun a b => rfl),
          insertionSort_map_comm rowLeR1 eraseWkRow (fun a b => rfl), hrows]
      · exact hsum

/-- C10: weight noninterference.  Two runs of any `compute_rigid_diaphragm`
variant whose inputs differ only in the diaphragm weight `W` and the per-wall
weights `w_k` agree on everything except the echoed weight fields: same
errors, same summary (the v2 summary with its echoed `W` blanked), and the
same rows once the echoed `w_k` column is blanked — the weights influence no
computed quantity. -/
theorem c10_theorem :
    (∀ i q walls1 walls2, walls1.map eraseWkWall = walls2.map eraseWkWall →
      (computeR1 (setW i q) walls1).map
        (fun res => (res.fst.map eraseWkRow, res.snd)) =
      (computeR1 i walls2).map (fun res => (res.fst.map eraseWkRow, res.snd))) ∧
    (∀ i q walls1 walls2, walls1.map eraseWkWall = walls2.map eraseWkWall →
      (computeAppR1 (setW i q) walls1).map
        (fun res => (res.fst.map eraseWkRow, res.snd)) =
      (computeAppR1 i walls2).map (fun res => (res.fst.map eraseWkRow, res.snd))) ∧
    (∀ i q walls1 walls2, walls1.map eraseWkWall = walls2.map eraseWkWall →
      (computeV2 (setW i q) walls1).map
        (fun res => (res.fst.map eraseWkRowV2, eraseWSummaryV2 res.snd)) =
      (computeV2 i walls2).map
        (fun res => (res.fst.map eraseWkRowV2, eraseWSummaryV2 res.snd))) :=
  ⟨computeR1_wk_free, computeAppR1_wk_free, computeV2_wk_free⟩

/-- C10 witness: the noninterference equality on the demo layout, with the
diaphragm weight changed from 5 to 99 and all four wall weights changed. -/
theorem c10_witness :
    (computeR1 (setW r1DemoInp 99) r1DemoWallsW).map
      (fun res => (res.fst.map eraseWkRow, res.snd)) =
    (computeR1 r1DemoInp r1DemoWalls).map
      (fun res => (res.fst.map eraseWkRow, res.snd)) :=
  c10_theorem.1 r1DemoInp 99 r1DemoWallsW r1DemoWalls (by with_unfolding_all decide)
